import Mathlib

/-!
Shallow embedding of the corner-point grid engine in
`src/devel/libecl/src/ecl_grid.c` (ERT / libecl), together with proofs about
its indexing scheme, LGR bookkeeping and geometric query routines.

Real-valued coordinates are embedded as exact rationals (`ℚ`); C `int`
values are embedded as `Int` (or `Nat` where the C code only ever holds
non-negative values); a fatal `util_abort` is embedded as `Option.none`.

The helper files `point.c` and `tetrahedron.c` are not part of the source
tree given here; the few leaf operations taken from them are modelled from
the specification text and are marked `Modelled from the spec:` in their
doc comments.  Everything else is translated directly from `ecl_grid.c`.
-/

/-- Modelled from the spec: the 3-D point type of `point.c` (not in src);
"(x, y, z) real-valued coordinate", a pure value type. -/
structure Point where
  x : ℚ
  y : ℚ
  z : ℚ
deriving DecidableEq, Repr

instance : Inhabited Point := ⟨⟨0, 0, 0⟩⟩

/-- Modelled from the spec: componentwise difference of two points
(used only to build tetrahedron edge vectors). -/
def point_sub (p q : Point) : Point :=
  ⟨p.x - q.x, p.y - q.y, p.z - q.z⟩

/-- One hexahedral cell: `struct ecl_cell_struct` from `ecl_grid.c`.
The 8 corner points are modelled as a total function on corner numbers;
the C code only ever indexes corners 0..7.  The `lgr` back-reference is
modelled by the refining grid's `grid_nr` (pointer identity in C). -/
structure EclCell where
  active : Bool
  active_index : Int
  center : Point
  corner_list : Nat → Point
  lgr : Option Nat
  host_cell : Int
  tainted_geometry : Bool

/-- `ecl_cell_alloc()`: a blank cell (`active_index` is uninitialised in C;
any default serves). -/
def ecl_cell_alloc : EclCell where
  active := false
  active_index := 0
  center := ⟨0, 0, 0⟩
  corner_list := fun _ => ⟨0, 0, 0⟩
  lgr := none
  host_cell := -1
  tainted_geometry := false

instance : Inhabited EclCell := ⟨ecl_cell_alloc⟩

/-- `ecl_cell_install_lgr()`. -/
def ecl_cell_install_lgr (cell : EclCell) (lgr_grid_nr : Nat) : EclCell :=
  { cell with lgr := some lgr_grid_nr }

/-! ### min/max helpers (`max2` .. `min8` in `ecl_grid.c`) -/

def max2 (x1 x2 : ℚ) : ℚ := if x1 > x2 then x1 else x2

def min2 (x1 x2 : ℚ) : ℚ := if x1 < x2 then x1 else x2

def min4 (x1 x2 x3 x4 : ℚ) : ℚ := min2 (min2 x1 x2) (min2 x3 x4)

def max4 (x1 x2 x3 x4 : ℚ) : ℚ := max2 (max2 x1 x2) (max2 x3 x4)

def max8 (x1 x2 x3 x4 x5 x6 x7 x8 : ℚ) : ℚ :=
  max2 (max4 x1 x2 x3 x4) (max4 x5 x6 x7 x8)

def min8 (x1 x2 x3 x4 x5 x6 x7 x8 : ℚ) : ℚ :=
  min2 (min4 x1 x2 x3 x4) (min4 x5 x6 x7 x8)

/-- `ecl_cell_min_z`: minimum over the four *lower* corners only. -/
def ecl_cell_min_z (cell : EclCell) : ℚ :=
  min4 (cell.corner_list 0).z (cell.corner_list 1).z
       (cell.corner_list 2).z (cell.corner_list 3).z

/-- `ecl_cell_max_z`: maximum over the four *upper* corners only. -/
def ecl_cell_max_z (cell : EclCell) : ℚ :=
  max4 (cell.corner_list 4).z (cell.corner_list 5).z
       (cell.corner_list 6).z (cell.corner_list 7).z

/-- `ecl_cell_min_x`: over all 8 corners (the grid may be rotated). -/
def ecl_cell_min_x (cell : EclCell) : ℚ :=
  min8 (cell.corner_list 0).x (cell.corner_list 1).x
       (cell.corner_list 2).x (cell.corner_list 3).x
       (cell.corner_list 4).x (cell.corner_list 5).x
       (cell.corner_list 6).x (cell.corner_list 7).x

def ecl_cell_max_x (cell : EclCell) : ℚ :=
  max8 (cell.corner_list 0).x (cell.corner_list 1).x
       (cell.corner_list 2).x (cell.corner_list 3).x
       (cell.corner_list 4).x (cell.corner_list 5).x
       (cell.corner_list 6).x (cell.corner_list 7).x

def ecl_cell_min_y (cell : EclCell) : ℚ :=
  min8 (cell.corner_list 0).y (cell.corner_list 1).y
       (cell.corner_list 2).y (cell.corner_list 3).y
       (cell.corner_list 4).y (cell.corner_list 5).y
       (cell.corner_list 6).y (cell.corner_list 7).y

def ecl_cell_max_y (cell : EclCell) : ℚ :=
  max8 (cell.corner_list 0).y (cell.corner_list 1).y
       (cell.corner_list 2).y (cell.corner_list 3).y
       (cell.corner_list 4).y (cell.corner_list 5).y
       (cell.corner_list 6).y (cell.corner_list 7).y

/-- `ecl_cell_taint_cell`: mark the cell tainted when some corner has
horizontal position (0,0).  The C loop only ever *sets* the flag. -/
def ecl_cell_taint_cell (cell : EclCell) : EclCell :=
  { cell with
    tainted_geometry :=
      cell.tainted_geometry ||
        (List.range 8).any fun c =>
          decide ((cell.corner_list c).x = 0) && decide ((cell.corner_list c).y = 0) }

/-! ### Tetrahedron decomposition -/

/-- The `tetrahedron_permutations[2][12][3]` table, verbatim from the source. -/
def tetrahedron_permutations : List (List (List Nat)) :=
  [[[0, 2, 6],
    [0, 4, 6],
    [0, 4, 5],
    [0, 1, 5],
    [1, 3, 7],
    [1, 5, 7],
    [2, 3, 7],
    [2, 6, 7],
    [0, 1, 2],
    [1, 2, 3],
    [4, 5, 6],
    [5, 6, 7]],
   [[0, 2, 4],
    [2, 4, 6],
    [0, 4, 1],
    [4, 5, 1],
    [1, 3, 5],
    [3, 5, 7],
    [2, 3, 6],
    [3, 6, 7],
    [0, 1, 3],
    [0, 2, 3],
    [4, 5, 7],
    [4, 6, 7]]]

/-- Scalar triple product `(b-a) ⬝ ((c-a) × (d-a))` of the edge vectors of a
tetrahedron with vertices `a b c d`. -/
def point_triple (a b c d : Point) : ℚ :=
  let u := point_sub b a
  let v := point_sub c a
  let w := point_sub d a
  u.x * (v.y * w.z - v.z * w.y)
    - u.y * (v.x * w.z - v.z * w.x)
    + u.z * (v.x * w.y - v.y * w.x)

/-- Modelled from the spec: `tetrahedron_volume` of `tetrahedron.c` (not in
src).  The volume of the tetrahedron spanned by the four vertices: one sixth
of the absolute value of the scalar triple product of its edge vectors
("decompose the hexahedron into 12 tetrahedra"; degenerate tetrahedra have
zero volume and so contribute 0). -/
def tetrahedron_volume (a b c d : Point) : ℚ :=
  |point_triple a b c d| / 6

/-- Modelled from the spec: `tetrahedron_contains` of `tetrahedron.c` (not
in src).  Point membership in the (closed) tetrahedron with vertices
`a b c d`, decided by the signs of the four replaced-vertex triple products;
a degenerate (zero volume) tetrahedron contains nothing. -/
def tetrahedron_contains (a b c d p : Point) : Bool :=
  let D0 := point_triple a b c d
  let D1 := point_triple p b c d
  let D2 := point_triple a p c d
  let D3 := point_triple a b p d
  let D4 := point_triple a b c p
  if D0 > 0 then
    decide (0 ≤ D1) && decide (0 ≤ D2) && decide (0 ≤ D3) && decide (0 ≤ D4)
  else if D0 < 0 then
    decide (D1 ≤ 0) && decide (D2 ≤ 0) && decide (D3 ≤ 0) && decide (D4 ≤ 0)
  else false

/-- `ecl_cell_init_tetrahedron`: the four vertices (cell center plus the
three corners selected by the permutation table) of tetrahedron
`tetrahedron_nr` of decomposition scheme `method_nr`. -/
def ecl_cell_init_tetrahedron (cell : EclCell) (method_nr tetrahedron_nr : Nat) :
    Point × Point × Point × Point :=
  let row := (tetrahedron_permutations.getD method_nr []).getD tetrahedron_nr []
  let point0 := row.getD 0 0
  let point1 := row.getD 1 0
  let point2 := row.getD 2 0
  (cell.center, cell.corner_list point0, cell.corner_list point1,
   cell.corner_list point2)

/-- Volume of one tetrahedron of the decomposition of `cell`. -/
def ecl_cell_tet_volume (cell : EclCell) (method_nr tetrahedron_nr : Nat) : ℚ :=
  let t := ecl_cell_init_tetrahedron cell method_nr tetrahedron_nr
  tetrahedron_volume t.1 t.2.1 t.2.2.1 t.2.2.2

/-- `ecl_cell_get_volume`: sum the 12 tetrahedron volumes of *both*
decomposition schemes and halve the total. -/
def ecl_cell_get_volume (cell : EclCell) : ℚ :=
  ((List.range 12).foldl
    (fun volume itet =>
      volume + ecl_cell_tet_volume cell 0 itet + ecl_cell_tet_volume cell 1 itet)
    0) * (1 / 2)

/-! ### 2-D (layer) containment -/

/-- `triangle_area`: absolute area from the shoelace formula. -/
def triangle_area (x1 y1 x2 y2 x3 y3 : ℚ) : ℚ :=
  |x1 * y2 + x2 * y3 + x3 * y1 - x1 * y3 - x3 * y2 - x2 * y1| * (1 / 2)

/-- `triangle_contains`: barycentric test with epsilon 1e-10 exactly as in
the C code (the epsilon is an exact rational here). -/
def triangle_contains (p0 p1 p2 : Point) (x y : ℚ) : Bool :=
  let epsilon : ℚ := 1 / 10000000000
  let VT := triangle_area p0.x p0.y p1.x p1.y p2.x p2.y
  if VT < epsilon then false
  else
    let V1 := triangle_area p0.x p0.y p1.x p1.y x y
    let V2 := triangle_area p0.x p0.y x y p2.x p2.y
    let V3 := triangle_area x y p1.x p1.y p2.x p2.y
    if |VT - (V1 + V2 + V3)| < epsilon then true else false

/-- `ecl_cell_layer_contains_xy`: does the lower (corners 0-1-2-3) or upper
(corners 4-5-6-7) face of the cell contain the point (x,y)?  Tainted cells
always answer `false`. -/
def ecl_cell_layer_contains_xy (cell : EclCell) (lower_layer : Bool) (x y : ℚ) :
    Bool :=
  if cell.tainted_geometry then false
  else
    let corner_offset := if lower_layer then 0 else 4
    let p0 := cell.corner_list (corner_offset + 0)
    let p1 := cell.corner_list (corner_offset + 1)
    let p2 := cell.corner_list (corner_offset + 2)
    let p3 := cell.corner_list (corner_offset + 3)
    if triangle_contains p0 p1 p2 x y then true
    else triangle_contains p1 p2 p3 x y

/-! ### 3-D point-in-cell test -/

/-- `ecl_cell_contains_point`.  `none` models the `util_abort` branch that
is reached when the point passes every bounding-box check yet the computed
cell volume is not strictly positive. -/
def ecl_cell_contains_point (cell : EclCell) (p : Point) : Option Bool :=
  if cell.tainted_geometry then some false
  else if p.z < ecl_cell_min_z cell then some false
  else if p.z > ecl_cell_max_z cell then some false
  else if p.x < ecl_cell_min_x cell then some false
  else if p.x > ecl_cell_max_x cell then some false
  else if p.y < ecl_cell_min_y cell then some false
  else if p.y > ecl_cell_max_y cell then some false
  else if ecl_cell_get_volume cell > 0 then
    some ((List.range 12).any fun tetrahedron_nr =>
      let t := ecl_cell_init_tetrahedron cell 0 tetrahedron_nr
      tetrahedron_contains t.1 t.2.1 t.2.2.1 t.2.2.2 p)
  else none

/-! ### The grid proper -/

/-- `struct ecl_grid_struct` (the fields the verified claims touch).  The
LGR storage (`LGR_list` / `LGR_hash`) of the *main* grid is modelled
separately by `MainGrid` below, because a structure cannot contain a list
of itself.  The `visited` scratch buffer is call-scoped in the model (the
C code clears it at the start of every locate call). -/
structure EclGrid where
  grid_nr : Nat
  nx : Nat
  ny : Nat
  nz : Nat
  total_active : Nat
  index_map : List Int
  inv_index_map : List Int
  cells : List EclCell

/-- `grid->size == nx*ny*nz`. -/
def EclGrid.size (g : EclGrid) : Nat := g.nx * g.ny * g.nz

/-- Read cell `global_index` (in C: `grid->cells[global_index]`; reads are
only ever performed in range). -/
def EclGrid.cell (g : EclGrid) (global_index : Nat) : EclCell :=
  g.cells.getD global_index default

/-- `ecl_grid_get_global_index__`: the raw (unchecked) index formula. -/
def ecl_grid_get_global_index__ (g : EclGrid) (i j k : Int) : Int :=
  i + j * g.nx + k * g.nx * g.ny

/-- `ecl_grid_ijk_valid`: `0 ≤ i < nx ∧ 0 ≤ j < ny ∧ 0 ≤ k < nz`. -/
def ecl_grid_ijk_valid (g : EclGrid) (i j k : Int) : Bool :=
  decide (0 ≤ i) && decide (i < g.nx) &&
  decide (0 ≤ j) && decide (j < g.ny) &&
  decide (0 ≤ k) && decide (k < g.nz)

/-- `ecl_grid_get_global_index3`: checked (i,j,k) → global conversion;
`none` models the `util_abort` on out-of-range input. -/
def ecl_grid_get_global_index3 (g : EclGrid) (i j k : Int) : Option Int :=
  if ecl_grid_ijk_valid g i j k then some (ecl_grid_get_global_index__ g i j k)
  else none

/-- `ecl_grid_get_ijk1`: global index → (i,j,k) by successive division
(`Int.tdiv` is C's truncating `/`). -/
def ecl_grid_get_ijk1 (g : EclGrid) (global_index : Int) : Int × Int × Int :=
  let k := global_index.tdiv (g.nx * g.ny)
  let rem1 := global_index - k * (g.nx * g.ny)
  let j := rem1.tdiv g.nx
  let i := rem1 - j * g.nx
  (i, j, k)

/-- `ecl_grid_get_active_index1`: the precomputed global → active map. -/
def ecl_grid_get_active_index1 (g : EclGrid) (global_index : Int) : Int :=
  g.index_map.getD global_index.toNat 0

/-- `ecl_grid_get_active_index3` (aborts, via `ecl_grid_get_global_index3`,
on invalid (i,j,k)). -/
def ecl_grid_get_active_index3 (g : EclGrid) (i j k : Int) : Option Int :=
  (ecl_grid_get_global_index3 g i j k).map (ecl_grid_get_active_index1 g)

/-- `ecl_grid_get_global_index1A`: the active → global map. -/
def ecl_grid_get_global_index1A (g : EclGrid) (active_index : Int) : Int :=
  g.inv_index_map.getD active_index.toNat 0

/-! ### The index-map refresh pass -/

/-- The k-outer, j-middle, i-inner traversal of `ecl_grid_set_active_index`,
listing the visited global indices in visit order. -/
def kjiGlobalOrder (nx ny nz : Nat) : List Nat :=
  (List.range nz).flatMap fun k =>
    (List.range ny).flatMap fun j =>
      (List.range nx).map fun i => i + j * nx + k * nx * ny

/-- One loop body of `ecl_grid_set_active_index`: assign the running active
index (or −1) to the cell at `global_index`. -/
def set_active_index_step (st : List EclCell × Nat) (global_index : Nat) :
    List EclCell × Nat :=
  match st.1[global_index]? with
  | none => st
  | some c =>
    if c.active then
      (st.1.set global_index { c with active_index := Int.ofNat st.2 }, st.2 + 1)
    else
      (st.1.set global_index { c with active_index := -1 }, st.2)

/-- `ecl_grid_set_active_index`: assign dense active indices in k/j/i
traversal order and record the total number of active cells. -/
def ecl_grid_set_active_index (g : EclGrid) : EclGrid :=
  let st := (kjiGlobalOrder g.nx g.ny g.nz).foldl set_active_index_step (g.cells, 0)
  { g with cells := st.1, total_active := st.2 }

/-- One loop body of `ecl_grid_realloc_index_map` acting on the pair
(index_map, inv_index_map). -/
def realloc_index_map_step (cells : List EclCell) (st : List Int × List Int)
    (index : Nat) : List Int × List Int :=
  match cells[index]? with
  | none => st
  | some c =>
    if c.active then
      (st.1 ++ [c.active_index], st.2.set c.active_index.toNat (Int.ofNat index))
    else
      (st.1 ++ [(-1 : Int)], st.2)

/-- `ecl_grid_realloc_index_map`: rebuild `index_map` (one entry per cell,
`-1` for inactive) and `inv_index_map` (`total_active` entries, written
through each active cell's `active_index`).  The C `inv_index_map` buffer
is uninitialised; the model fills it with 0, every slot is overwritten. -/
def ecl_grid_realloc_index_map (g : EclGrid) : EclGrid :=
  let st := (List.range g.cells.length).foldl (realloc_index_map_step g.cells)
    ([], List.replicate g.total_active 0)
  { g with index_map := st.1, inv_index_map := st.2 }

/-- `ecl_grid_update_index`: `set_active_index` then `realloc_index_map`. -/
def ecl_grid_update_index (g : EclGrid) : EclGrid :=
  ecl_grid_realloc_index_map (ecl_grid_set_active_index g)

/-! ### Value-by-index lookup (`ecl_grid_get_property`) -/

/-- `ecl_grid_get_property` for a numeric keyword array `kw` (the embedding
carries only numeric arrays, so the `ecl_type` guard of the C code is
always satisfied).  `none` models the `util_abort` on a size mismatch or
invalid (i,j,k); a lookup of an inactive cell returns −1 as in C. -/
def ecl_grid_get_property (g : EclGrid) (kw : List ℚ) (i j k : Int) : Option ℚ :=
  let kw_size := kw.length
  let lookup_index : Option Int :=
    if kw_size = g.nx * g.ny * g.nz then
      ecl_grid_get_global_index3 g i j k
    else if kw_size = g.total_active then
      ecl_grid_get_active_index3 g i j k
    else none
  match lookup_index with
  | none => none
  | some li => if 0 ≤ li then some (kw.getD li.toNat 0) else some (-1)

/-! ### LGR installation (EGRID path) -/

/-- One loop body of `ecl_grid_install_lgr_EGRID` acting on the pair
(host cells, lgr cells): for an *active* LGR cell, install the `lgr`
back-reference on the host cell at index `hostnum[gli]` (the C code does
NOT decrement here) and set the LGR cell's `host_cell` to
`hostnum[gli] - 1` (decremented: "HOSTNUM has offset 1"). -/
def install_lgr_EGRID_step (lgr_grid_nr : Nat) (hostnum : List Int)
    (st : List EclCell × List EclCell) (gli : Nat) : List EclCell × List EclCell :=
  match st.2[gli]? with
  | none => st
  | some lgr_cell =>
    if lgr_cell.active then
      let h := hostnum.getD gli 0
      (st.1.set h.toNat (ecl_cell_install_lgr (st.1.getD h.toNat default) lgr_grid_nr),
       st.2.set gli { lgr_cell with host_cell := h - 1 })
    else st

/-- `ecl_grid_install_lgr_EGRID`: wire every active LGR cell to its host
cell via the 1-based `hostnum` map.  Returns (updated host grid, updated
LGR grid).  The `children` hash and `parent_grid` pointer updates carry no
cell state and are omitted. -/
def ecl_grid_install_lgr_EGRID (host_grid lgr_grid : EclGrid) (hostnum : List Int) :
    EclGrid × EclGrid :=
  let st := (List.range lgr_grid.size).foldl
    (install_lgr_EGRID_step lgr_grid.grid_nr hostnum) (host_grid.cells, lgr_grid.cells)
  ({ host_grid with cells := st.1 }, { lgr_grid with cells := st.2 })

/-! ### LGR registration with the main grid -/

/-- An entry of the main grid's `LGR_list` vector: the stored grid and
whether the vector owns it (`vector_append_owned_ref` vs
`vector_append_ref`; ownership decides who frees the grid). -/
structure LGREntry where
  grid : EclGrid
  owned : Bool

/-- The main grid together with its LGR collection (`LGR_list`; the name
hash only mirrors the list and is omitted). -/
structure MainGrid where
  grid : EclGrid
  LGR_list : List LGREntry

/-- The `grid_nr == 0` tail of `ecl_grid_alloc_empty`: a fresh main grid
whose `LGR_list` starts with a non-owned self-entry. -/
def ecl_grid_alloc_main (g : EclGrid) : MainGrid :=
  { grid := g, LGR_list := [{ grid := g, owned := false }] }

/-- `ecl_grid_add_lgr`: aborts (`none`) unless the incoming grid's declared
`grid_nr` equals the current length of `LGR_list`; otherwise appends it as
an owned entry. -/
def ecl_grid_add_lgr (main_grid : MainGrid) (lgr_grid : EclGrid) :
    Option MainGrid :=
  let next_grid_nr := main_grid.LGR_list.length
  if next_grid_nr ≠ lgr_grid.grid_nr then none
  else some { main_grid with
              LGR_list := main_grid.LGR_list ++ [{ grid := lgr_grid, owned := true }] }

/-! ### Locality-seeded point locate -/

/-- The (k-outer, j, i-inner) visit order of the triple loop in
`ecl_grid_box_contains_xyz` over the half-open box
`[i1,i2) × [j1,j2) × [k1,k2)`, as global indices. -/
def boxOrder (nx ny : Nat) (i1 i2 j1 j2 k1 k2 : Nat) : List Nat :=
  (List.range' k1 (k2 - k1)).flatMap fun k =>
    (List.range' j1 (j2 - j1)).flatMap fun j =>
      (List.range' i1 (i2 - i1)).map fun i => i + j * nx + k * nx * ny

/-- The loop of `ecl_grid_box_contains_xyz`, recursing over the visit
order: skip cells already marked in `visited`, mark then test the rest.
Returns `none` on an aborting containment test, otherwise the found global
index (or −1) together with the updated marker array. -/
def box_scan (cells : List EclCell) (p : Point) :
    List Nat → List Bool → Option (Int × List Bool)
  | [], visited => some (-1, visited)
  | gi :: rest, visited =>
    if visited.getD gi true then box_scan cells p rest visited
    else
      let visited' := visited.set gi true
      match ecl_cell_contains_point (cells.getD gi default) p with
      | none => none
      | some true => some (Int.ofNat gi, visited')
      | some false => box_scan cells p rest visited'

/-- `ecl_grid_box_contains_xyz` for the box `[i1,i2) × [j1,j2) × [k1,k2)`
(all callers pass bounds clipped to the grid, so the inner
`ecl_grid_get_global_index3` never aborts and is evaluated directly). -/
def ecl_grid_box_contains_xyz (g : EclGrid) (visited : List Bool)
    (i1 i2 j1 j2 k1 k2 : Nat) (p : Point) : Option (Int × List Bool) :=
  box_scan g.cells p (boxOrder g.nx g.ny i1 i2 j1 j2 k1 k2) visited

/-- The final full linear scan of `ecl_grid_get_global_index_from_xyz`
(and of the claim's staged description): test cells in the given order,
return the first whose containment test succeeds, −1 if none does, `none`
if a test aborts. -/
def scan_first (cells : List EclCell) (p : Point) : List Nat → Option Int
  | [] => some (-1)
  | gi :: rest =>
    match ecl_cell_contains_point (cells.getD gi default) p with
    | none => none
    | some true => some (Int.ofNat gi)
    | some false => scan_first cells p rest

/-- The wrap-around order of the full linear scan starting at
`start_index`: `(index + start_index) % size` for `index = 0 .. size-1`. -/
def wrapOrder (size start_index : Nat) : List Nat :=
  (List.range size).map fun index => (index + start_index) % size

/-- `ecl_grid_get_global_index_from_xyz`.  A non-negative `start_index`
first tests that cell, then the two clipped boxes
`[i-1, i+1) × [j-1, j+1) × [k-1, k+1)` and `[i-2, i+2) × ... × [k-2, k+2)`
(the C caller passes `util_int_min(nx, i+1)` etc. to the *exclusive* upper
bound of `ecl_grid_box_contains_xyz`), and finally falls back to the full
wrap-around linear scan.  `none` models an aborting containment test. -/
def ecl_grid_get_global_index_from_xyz (g : EclGrid) (p : Point)
    (start_index : Int) : Option Int :=
  let visited : List Bool := List.replicate g.size false
  let linear : Unit → Option Int := fun _ => scan_first g.cells p (wrapOrder g.size start_index.toNat)
  if 0 ≤ start_index then
    match ecl_cell_contains_point (g.cells.getD start_index.toNat default) p with
    | none => none
    | some true => some start_index
    | some false =>
      let ijk := ecl_grid_get_ijk1 g start_index
      let i := ijk.1.toNat
      let j := ijk.2.1.toNat
      let k := ijk.2.2.toNat
      match ecl_grid_box_contains_xyz g visited
        (i - 1) (min g.nx (i + 1)) (j - 1) (min g.ny (j + 1))
        (k - 1) (min g.nz (k + 1)) p with
      | none => none
      | some (gi1, visited1) =>
        if 0 ≤ gi1 then some gi1
        else
          match ecl_grid_box_contains_xyz g visited1
            (i - 2) (min g.nx (i + 2)) (j - 2) (min g.ny (j + 2))
            (k - 2) (min g.nz (k + 2)) p with
          | none => none
          | some (gi2, _) =>
            if 0 ≤ gi2 then some gi2
            else linear ()
  else linear ()

/-! ### Remaining public wrappers the claims touch -/

/-- `ecl_grid_cell_contains_xyz1`: the public by-global-index containment
query. -/
def ecl_grid_cell_contains_xyz1 (g : EclGrid) (global_index : Nat)
    (x y z : ℚ) : Option Bool :=
  ecl_cell_contains_point (g.cells.getD global_index default) ⟨x, y, z⟩

/-- `ecl_grid_taint_cells`: run the tainted-geometry heuristic over every
cell. -/
def ecl_grid_taint_cells (g : EclGrid) : EclGrid :=
  { g with cells := g.cells.map ecl_cell_taint_cell }

/-! ### Claim-side definitions for the staged point locate -/

/-- Claim-side: the staged locate as the *claim* states it — the second
stage scans the inclusive 3×3×3 neighborhood `i−1..i+1` (clipped), the
third the inclusive 5×5×5 neighborhood `i−2..i+2`, with the same visited
marker discipline; then the full wrap-around linear scan. -/
def locate_xyz_claim (g : EclGrid) (p : Point) (h : Nat) : Option Int :=
  let visited : List Bool := List.replicate g.size false
  match ecl_cell_contains_point (g.cells.getD h default) p with
  | none => none
  | some true => some (Int.ofNat h)
  | some false =>
    let ijk := ecl_grid_get_ijk1 g (Int.ofNat h)
    let i := ijk.1.toNat
    let j := ijk.2.1.toNat
    let k := ijk.2.2.toNat
    match ecl_grid_box_contains_xyz g visited
      (i - 1) (min g.nx (i + 2)) (j - 1) (min g.ny (j + 2))
      (k - 1) (min g.nz (k + 2)) p with
    | none => none
    | some (gi1, visited1) =>
      if 0 ≤ gi1 then some gi1
      else
        match ecl_grid_box_contains_xyz g visited1
          (i - 2) (min g.nx (i + 3)) (j - 2) (min g.ny (j + 3))
          (k - 2) (min g.nz (k + 3)) p with
        | none => none
        | some (gi2, _) =>
          if 0 ≤ gi2 then some gi2
          else scan_first g.cells p (wrapOrder g.size h)

/-- Claim-side (amended): the staged search order actually implemented —
start cell, then the clipped half-open boxes `[i−1,i+1) × [j−1,j+1) ×
[k−1,k+1)` and `[i−2,i+2) × [j−2,j+2) × [k−2,k+2)` (skipping cells already
visited), then the full wrap-around scan; the result is the first cell in
that order whose containment test succeeds, −1 if none. -/
def locate_xyz_amended (g : EclGrid) (p : Point) (h : Nat) : Option Int :=
  match ecl_cell_contains_point (g.cells.getD h default) p with
  | none => none
  | some true => some (Int.ofNat h)
  | some false =>
    let ijk := ecl_grid_get_ijk1 g (Int.ofNat h)
    let i := ijk.1.toNat
    let j := ijk.2.1.toNat
    let k := ijk.2.2.toNat
    let b1 := boxOrder g.nx g.ny (i - 1) (min g.nx (i + 1)) (j - 1)
      (min g.ny (j + 1)) (k - 1) (min g.nz (k + 1))
    let b2 := boxOrder g.nx g.ny (i - 2) (min g.nx (i + 2)) (j - 2)
      (min g.ny (j + 2)) (k - 2) (min g.nz (k + 2))
    scan_first g.cells p (b1 ++ b2.filter (fun gi => decide (gi ∉ b1)) ++
      wrapOrder g.size h)

/-! ### Concrete cells and grids used by witnesses and counterexamples -/

/-- An axis-aligned cube cell with lowest corner `(a,a,a)` and edge length
`e`, corners in the ECLIPSE numbering scheme and the centroid at the
center. -/
def cubeCell (a e : ℚ) : EclCell :=
  { ecl_cell_alloc with
    active := true
    center := ⟨a + e / 2, a + e / 2, a + e / 2⟩
    corner_list := fun n =>
      ⟨a + e * ((n % 2 : Nat) : ℚ), a + e * (((n / 2) % 2 : Nat) : ℚ),
       a + e * ((n / 4 : Nat) : ℚ)⟩ }

/-- The 5×1×1 grid of the C5 counterexample: cells 0 and 3 are overlapping
cubes (spanning [10,12]³ and [11,13]³), the rest are blank. -/
def cexGrid : EclGrid :=
  { grid_nr := 0, nx := 5, ny := 1, nz := 1, total_active := 0
    index_map := [], inv_index_map := []
    cells := [cubeCell 10 2, ecl_cell_alloc, ecl_cell_alloc, cubeCell 11 2,
              ecl_cell_alloc] }

/-- The query point of the C5 counterexample, inside both cube cells. -/
def cexPoint : Point := ⟨23 / 2, 23 / 2, 23 / 2⟩

instance : Inhabited EclGrid :=
  ⟨{ grid_nr := 0, nx := 0, ny := 0, nz := 0, total_active := 0
     index_map := [], inv_index_map := [], cells := [] }⟩

instance : Inhabited LGREntry := ⟨{ grid := default, owned := false }⟩

/-- A blank active cell. -/
def activeCell : EclCell := { ecl_cell_alloc with active := true }

/-- A degenerate cell: all 8 corners and the centroid coincide at (1,1,1)
(away from the origin, so it is not tainted). -/
def degenCell : EclCell :=
  { ecl_cell_alloc with
    center := ⟨1, 1, 1⟩
    corner_list := fun _ => ⟨1, 1, 1⟩ }

/-- A 1×1×1 grid holding only `degenCell`. -/
def degenGrid : EclGrid :=
  { grid_nr := 0, nx := 1, ny := 1, nz := 1, total_active := 0
    index_map := [], inv_index_map := [], cells := [degenCell] }

/-- The 2×1×1 host grid of the C4 example. -/
def hostGridC4 : EclGrid :=
  { grid_nr := 0, nx := 2, ny := 1, nz := 1, total_active := 0
    index_map := [], inv_index_map := [], cells := [ecl_cell_alloc, ecl_cell_alloc] }

/-- The 1×1×1 all-active LGR grid of the C4 example. -/
def lgrGridC4 : EclGrid :=
  { grid_nr := 1, nx := 1, ny := 1, nz := 1, total_active := 1
    index_map := [0], inv_index_map := [0], cells := [activeCell] }

/-- Installing `lgrGridC4` into `hostGridC4` with the 1-based host-cell map
`[1]` (i.e. the LGR refines host cell 0). -/
def installC4 : EclGrid × EclGrid :=
  ecl_grid_install_lgr_EGRID hostGridC4 lgrGridC4 [1]

/-- A 2×2×1 grid with cells (active, inactive, active, active), before any
index-map refresh. -/
def testGrid : EclGrid :=
  { grid_nr := 0, nx := 2, ny := 2, nz := 1, total_active := 0
    index_map := [], inv_index_map := []
    cells := [activeCell, ecl_cell_alloc, activeCell, activeCell] }

/-- A bare 2×3×4 grid (index-conversion functions never look at cells). -/
def gridC2 : EclGrid :=
  { grid_nr := 0, nx := 2, ny := 3, nz := 4, total_active := 0
    index_map := [], inv_index_map := [], cells := [] }

/-- A trivial 1×1×1 main grid for the LGR-registration example. -/
def mainGridC9 : EclGrid :=
  { grid_nr := 0, nx := 1, ny := 1, nz := 1, total_active := 1
    index_map := [0], inv_index_map := [0], cells := [activeCell] }

/-- LGR grids declaring occurrence numbers 1 and 2. -/
def lgrGridC9a : EclGrid := { mainGridC9 with grid_nr := 1 }

def lgrGridC9b : EclGrid := { mainGridC9 with grid_nr := 2 }

/-- Register a list of LGR grids with the main grid in order, aborting as
soon as one registration aborts (the loops in `ecl_grid_alloc_EGRID` /
`ecl_grid_alloc_GRID`). -/
def ecl_grid_add_lgr_all (main_grid : MainGrid) (lgrs : List EclGrid) :
    Option MainGrid :=
  lgrs.foldlM ecl_grid_add_lgr main_grid

/-- A cell already marked tainted (used by the C6 witness). -/
def taintedCell : EclCell := { ecl_cell_alloc with tainted_geometry := true }

/-- Claim C6: a cell with tainted geometry fails every 3-D point-in-cell
test and every 2-D layer (column) containment test — in particular it does
not contain its own centroid. -/
theorem claim_C6 (cell : EclCell) (p : Point) (lower_layer : Bool) (x y : ℚ)
    (h : cell.tainted_geometry = true) :
    ecl_cell_contains_point cell p = some false ∧
    ecl_cell_layer_contains_xy cell lower_layer x y = false ∧
    ecl_cell_contains_point cell cell.center = some false := by
  simp [ecl_cell_contains_point, ecl_cell_layer_contains_xy, h]

theorem claim_C6_witness :
    taintedCell.tainted_geometry = true ∧
    (ecl_cell_contains_point taintedCell ⟨5, 5, 5⟩ = some false ∧
     ecl_cell_layer_contains_xy taintedCell true 5 5 = false ∧
     ecl_cell_contains_point taintedCell taintedCell.center = some false) :=
  ⟨rfl, claim_C6 taintedCell ⟨5, 5, 5⟩ true 5 5 rfl⟩

/-- The taint test on one cell, spelled as an existential over corners. -/
lemma taint_cell_iff (cell : EclCell) (hpre : cell.tainted_geometry = false) :
    ((ecl_cell_taint_cell cell).tainted_geometry = true ↔
      ∃ c < 8, (cell.corner_list c).x = 0 ∧ (cell.corner_list c).y = 0) := by
  simp only [ecl_cell_taint_cell, hpre, Bool.false_or, List.any_eq_true,
    List.mem_range, Bool.and_eq_true, decide_eq_true_eq]

/-- Claim C7: after the post-construction tainted-cell scan, a (previously
untainted) cell is tainted iff at least one of its 8 corners has horizontal
position (0,0); the corner's z value plays no role. -/
theorem claim_C7 (g : EclGrid) (gi : Nat) (hgi : gi < g.cells.length)
    (hpre : (g.cells.getD gi default).tainted_geometry = false) :
    (((ecl_grid_taint_cells g).cells.getD gi default).tainted_geometry = true ↔
      ∃ c < 8, ((g.cells.getD gi default).corner_list c).x = 0 ∧
               ((g.cells.getD gi default).corner_list c).y = 0) := by
  have hmap : (ecl_grid_taint_cells g).cells.getD gi default =
      ecl_cell_taint_cell (g.cells.getD gi default) := by
    simp [ecl_grid_taint_cells, List.getD_eq_getElem?_getD, List.getElem?_map,
      List.getElem?_eq_getElem hgi]
  rw [hmap]
  exact taint_cell_iff _ hpre

theorem claim_C7_witness :
    (0 < degenGrid.cells.length ∧
     (degenGrid.cells.getD 0 default).tainted_geometry = false) ∧
    ¬ (((ecl_grid_taint_cells degenGrid).cells.getD 0 default).tainted_geometry
        = true) := by
  refine ⟨⟨by decide, rfl⟩, ?_⟩
  rw [claim_C7 degenGrid 0 (by decide) rfl]
  rintro ⟨c, -, hx, -⟩
  exact absurd hx (by norm_num [degenGrid, degenCell])

/-- Claim C8: the cell volume is half the sum of the 12 centroid-based
tetrahedron volumes of each of the two decomposition schemes (24 in
total), and an axis-aligned unit cube (centroid at its center) has volume
exactly 1. -/
theorem claim_C8 :
    (∀ cell : EclCell,
      ecl_cell_get_volume cell =
        (((List.range 12).map (ecl_cell_tet_volume cell 0)).sum +
         ((List.range 12).map (ecl_cell_tet_volume cell 1)).sum) * (1 / 2)) ∧
    (∀ a : ℚ, ecl_cell_get_volume (cubeCell a 1) = 1) := by
  constructor
  · intro cell
    simp [ecl_cell_get_volume, List.range_succ]
    ring
  · intro a
    simp [ecl_cell_get_volume, ecl_cell_tet_volume, tetrahedron_volume,
      ecl_cell_init_tetrahedron, tetrahedron_permutations, point_triple,
      point_sub, cubeCell, List.range_succ]
    ring_nf
    have h1 : |(-1 : ℚ) / 2| = 1 / 2 := by
      rw [abs_div, abs_neg, abs_one]; norm_num
    have h2 : |(1 : ℚ) / 2| = 1 / 2 := abs_of_pos (by norm_num)
    simp only [h1, h2]
    norm_num

/-- Claim C10: for a non-tainted cell whose two-scheme volume is not
strictly positive (all 8 corners coincident at (1,1,1), away from the
origin) and a query point inside its degenerate bounding box, the public
point-in-cell query neither returns true nor false: it reaches the fatal
abort branch. -/
theorem claim_C10 :
    ecl_cell_get_volume degenCell = 0 ∧
    degenCell.tainted_geometry = false ∧
    ecl_grid_cell_contains_xyz1 degenGrid 0 1 1 1 = none := by
  refine ⟨?_, rfl, ?_⟩
  · norm_num [ecl_cell_get_volume, ecl_cell_tet_volume, tetrahedron_volume,
      ecl_cell_init_tetrahedron, tetrahedron_permutations, point_triple,
      point_sub, degenCell, List.range_succ]
  · norm_num [ecl_grid_cell_contains_xyz1, ecl_cell_contains_point, degenGrid,
      degenCell, ecl_cell_min_z, ecl_cell_max_z, ecl_cell_min_x, ecl_cell_max_x,
      ecl_cell_min_y, ecl_cell_max_y, min2, max2, min4, max4, min8, max8,
      ecl_cell_get_volume, ecl_cell_tet_volume, tetrahedron_volume,
      ecl_cell_init_tetrahedron, tetrahedron_permutations, point_triple,
      point_sub, ecl_cell_alloc, List.range_succ]
/-- Claim C2: for in-range (i,j,k) the forward conversion returns
`i + j·nx + k·nx·ny` and the global→(i,j,k) conversion recovers (i,j,k)
exactly; for out-of-range input the forward conversion aborts. -/
theorem claim_C2 (g : EclGrid) (i j k : Int) :
    ((0 ≤ i ∧ i < g.nx ∧ 0 ≤ j ∧ j < g.ny ∧ 0 ≤ k ∧ k < g.nz) →
      ecl_grid_get_global_index3 g i j k =
        some (i + j * g.nx + k * g.nx * g.ny) ∧
      ecl_grid_get_ijk1 g (i + j * g.nx + k * g.nx * g.ny) = (i, j, k)) ∧
    (¬(0 ≤ i ∧ i < g.nx ∧ 0 ≤ j ∧ j < g.ny ∧ 0 ≤ k ∧ k < g.nz) →
      ecl_grid_get_global_index3 g i j k = none) := by
  constructor
  · rintro ⟨h0i, h1i, h0j, h1j, h0k, h1k⟩
    have hvalid : ecl_grid_ijk_valid g i j k = true := by
      simp only [ecl_grid_ijk_valid, Bool.and_eq_true, decide_eq_true_eq]
      omega
    have hN : (0 : Int) < g.nx := lt_of_le_of_lt h0i h1i
    have hM : (0 : Int) < g.ny := lt_of_le_of_lt h0j h1j
    have hNM : (0 : Int) < (g.nx : Int) * g.ny := mul_pos hN hM
    have step1 : i + j * (g.nx : Int) < (g.nx : Int) + j * g.nx :=
      add_lt_add_right h1i _
    have step3 : (j + 1) * (g.nx : Int) ≤ (g.ny : Int) * g.nx := by
      apply mul_le_mul_of_nonneg_right _ (le_of_lt hN)
      omega
    have hij : i + j * (g.nx : Int) < (g.nx : Int) * g.ny := by
      calc i + j * (g.nx : Int) < (j + 1) * g.nx := by
            rw [add_mul, one_mul]; linarith [step1]
        _ ≤ (g.ny : Int) * g.nx := step3
        _ = (g.nx : Int) * g.ny := by ring
    have h0ij : 0 ≤ i + j * (g.nx : Int) :=
      add_nonneg h0i (mul_nonneg h0j (Int.natCast_nonneg _))
    have h0G : 0 ≤ i + j * (g.nx : Int) + k * g.nx * g.ny := by
      apply add_nonneg h0ij
      exact mul_nonneg (mul_nonneg h0k (Int.natCast_nonneg _)) (Int.natCast_nonneg _)
    have hkdiv : (i + j * (g.nx : Int) + k * g.nx * g.ny).tdiv
        ((g.nx : Int) * g.ny) = k := by
      rw [Int.tdiv_eq_ediv h0G (le_of_lt hNM)]
      have hshape : i + j * (g.nx : Int) + k * g.nx * g.ny =
          (i + j * (g.nx : Int)) + k * ((g.nx : Int) * g.ny) := by ring
      rw [hshape, Int.add_mul_ediv_right _ _ (ne_of_gt hNM),
        Int.ediv_eq_zero_of_lt h0ij hij, zero_add]
    have hjdiv : (i + j * (g.nx : Int)).tdiv g.nx = j := by
      rw [Int.tdiv_eq_ediv h0ij (Int.natCast_nonneg _),
        Int.add_mul_ediv_right _ _ (ne_of_gt hN),
        Int.ediv_eq_zero_of_lt h0i h1i, zero_add]
    refine ⟨by simp [ecl_grid_get_global_index3, hvalid,
      ecl_grid_get_global_index__], ?_⟩
    have hcast : ((g.nx * g.ny : Nat) : Int) = (g.nx : Int) * g.ny := by
      push_cast; ring
    simp only [ecl_grid_get_ijk1, hcast, hkdiv]
    have hrem : i + j * (g.nx : Int) + k * g.nx * g.ny -
        k * ((g.nx : Int) * g.ny) = i + j * g.nx := by ring
    rw [hrem, hjdiv]
    have hi : i + j * (g.nx : Int) - j * g.nx = i := by ring
    rw [hi]
  · intro hinval
    have hfalse : ecl_grid_ijk_valid g i j k = false := by
      cases hv : ecl_grid_ijk_valid g i j k with
      | false => rfl
      | true =>
        exfalso
        apply hinval
        simp only [ecl_grid_ijk_valid, Bool.and_eq_true, decide_eq_true_eq] at hv
        omega
    simp [ecl_grid_get_global_index3, hfalse]

theorem claim_C2_witness :
    ((0 : Int) ≤ 1 ∧ (1 : Int) < gridC2.nx ∧ (0 : Int) ≤ 2 ∧
     (2 : Int) < gridC2.ny ∧ (0 : Int) ≤ 3 ∧ (3 : Int) < gridC2.nz) ∧
    (ecl_grid_get_global_index3 gridC2 1 2 3 =
       some (1 + 2 * gridC2.nx + 3 * gridC2.nx * gridC2.ny) ∧
     ecl_grid_get_ijk1 gridC2 (1 + 2 * gridC2.nx + 3 * gridC2.nx * gridC2.ny) =
       (1, 2, 3)) ∧
    ecl_grid_get_global_index3 gridC2 2 0 0 = none := by
  have h := (claim_C2 gridC2 1 2 3).1 (by norm_num [gridC2])
  have h2 := (claim_C2 gridC2 2 0 0).2 (by norm_num [gridC2])
  exact ⟨by norm_num [gridC2], h, h2⟩

/-- Claim C4 is refuted by the code: installing a 1-cell active LGR with
1-based host map [1] (host cell 0) puts the `lgr` reference on host cell
1 = hostnum[0] (the C code indexes `host_grid->cells` *without* the
decrement) while setting the LGR cell's `host_cell` to the decremented
index 0 — the cell holding the reference and the stored `host_cell`
designate different host cells. -/
theorem claim_C4_counterexample :
    (installC4.1.cells.getD 1 default).lgr = some 1 ∧
    (installC4.1.cells.getD 0 default).lgr = none ∧
    (installC4.2.cells.getD 0 default).host_cell = 0 := by
  refine ⟨rfl, rfl, rfl⟩

/-- Claim C9, part (a) proved as an iff, part (b): starting from a freshly
allocated main grid, after any sequence of successful registrations every
entry's `grid_nr` equals its list position, entry 0 is the non-owned
self-entry, and all later entries are owned. -/
lemma add_lgr_all_inv (lgrs : List EclGrid) :
    ∀ m m' : MainGrid,
      ecl_grid_add_lgr_all m lgrs = some m' →
      (∀ pos < m.LGR_list.length,
          (m.LGR_list.getD pos default).grid.grid_nr = pos) →
      (∃ tail, m'.LGR_list = m.LGR_list ++ tail ∧
          ∀ e ∈ tail, e.owned = true) ∧
      (∀ pos < m'.LGR_list.length,
          (m'.LGR_list.getD pos default).grid.grid_nr = pos) := by
  induction lgrs with
  | nil =>
    intro m m' hrun hinv
    simp [ecl_grid_add_lgr_all] at hrun
    subst hrun
    exact ⟨⟨[], by simp⟩, hinv⟩
  | cons l ls ih =>
    intro m m' hrun hinv
    simp only [ecl_grid_add_lgr_all, List.foldlM_cons] at hrun
    rcases hm1 : ecl_grid_add_lgr m l with _ | m1
    · rw [hm1] at hrun; simp at hrun
    · rw [hm1] at hrun
      rw [show ∀ (a : MainGrid) (f : MainGrid → Option MainGrid),
            (some a >>= f) = f a from fun a f => rfl] at hrun
      -- characterize the successful step
      have hgn : l.grid_nr = m.LGR_list.length := by
        by_contra hne
        simp [ecl_grid_add_lgr, Ne.symm hne] at hm1
      have hm1eq : m1 = { m with
          LGR_list := m.LGR_list ++ [{ grid := l, owned := true }] } := by
        simp [ecl_grid_add_lgr, Ne.symm, hgn] at hm1
        exact hm1.symm
      subst hm1eq
      have hinv1 : ∀ pos < (m.LGR_list ++
          ([{ grid := l, owned := true }] : List LGREntry)).length,
          ((m.LGR_list ++ ([{ grid := l, owned := true }] : List LGREntry)).getD pos
            default).grid.grid_nr = pos := by
        intro pos hpos
        simp only [List.length_append, List.length_cons, List.length_nil] at hpos
        rcases Nat.lt_or_ge pos m.LGR_list.length with hlt | hge
        · rw [List.getD_eq_getElem?_getD, List.getElem?_append_left hlt,
            ← List.getD_eq_getElem?_getD]
          exact hinv pos hlt
        · have hpos0 : pos = m.LGR_list.length := by omega
          subst hpos0
          rw [List.getD_eq_getElem?_getD, List.getElem?_append_right hge]
          simp [hgn]
      have := ih _ _ (by simpa [ecl_grid_add_lgr_all] using hrun) hinv1
      refine ⟨?_, this.2⟩
      obtain ⟨⟨tail, htail, hown⟩, -⟩ := this
      refine ⟨{ grid := l, owned := true } :: tail, by simp [htail], ?_⟩
      intro e he
      rcases List.mem_cons.1 he with he1 | he1
      · subst he1; rfl
      · exact hown e he1

/-- Claim C9: registering an LGR aborts iff its declared occurrence number
differs from the current LGR-list length; after every successful sequence
of registrations each entry's `grid_nr` equals its list position, position
0 being the non-owned self-entry for the main grid. -/
theorem claim_C9 :
    (∀ (main_grid : MainGrid) (lgr_grid : EclGrid),
        ecl_grid_add_lgr main_grid lgr_grid = none ↔
          lgr_grid.grid_nr ≠ main_grid.LGR_list.length) ∧
    (∀ (g0 : EclGrid) (lgrs : List EclGrid) (mg : MainGrid),
        g0.grid_nr = 0 →
        ecl_grid_add_lgr_all (ecl_grid_alloc_main g0) lgrs = some mg →
        (∀ pos < mg.LGR_list.length,
            (mg.LGR_list.getD pos default).grid.grid_nr = pos) ∧
        mg.LGR_list.getD 0 default = { grid := g0, owned := false } ∧
        (∀ pos, 0 < pos → pos < mg.LGR_list.length →
            (mg.LGR_list.getD pos default).owned = true)) := by
  constructor
  · intro m l
    constructor
    · intro h
      by_contra hne
      simp [ecl_grid_add_lgr, hne] at h
    · intro hne
      simp [ecl_grid_add_lgr, Ne.symm hne]
  · intro g0 lgrs mg hg0 hrun
    have h0 : ∀ pos < (ecl_grid_alloc_main g0).LGR_list.length,
        ((ecl_grid_alloc_main g0).LGR_list.getD pos default).grid.grid_nr
          = pos := by
      intro pos hpos
      simp only [ecl_grid_alloc_main, List.length_cons, List.length_nil] at hpos
      have hpos0 : pos = 0 := by omega
      subst hpos0
      simp [ecl_grid_alloc_main, hg0]
    obtain ⟨⟨tail, htail, hown⟩, hinv⟩ := add_lgr_all_inv lgrs _ _ hrun h0
    refine ⟨hinv, ?_, ?_⟩
    · rw [htail]
      simp [ecl_grid_alloc_main]
    · intro pos hp0 hplen
      rw [htail] at hplen ⊢
      simp only [ecl_grid_alloc_main, List.cons_append, List.nil_append,
        List.length_cons] at hplen ⊢
      cases pos with
      | zero => omega
      | succ n =>
        have hlt : n < tail.length := by omega
        rw [List.getD_cons_succ]
        have hmem : tail.getD n default ∈ tail := by
          rw [List.getD_eq_getElem?_getD, List.getElem?_eq_getElem hlt]
          exact List.getElem_mem hlt
        exact hown _ hmem

theorem claim_C9_witness :
    (ecl_grid_add_lgr (ecl_grid_alloc_main mainGridC9) lgrGridC9b = none ↔
       lgrGridC9b.grid_nr ≠ (ecl_grid_alloc_main mainGridC9).LGR_list.length) ∧
    mainGridC9.grid_nr = 0 ∧
    (∃ mg, ecl_grid_add_lgr_all (ecl_grid_alloc_main mainGridC9)
        [lgrGridC9a, lgrGridC9b] = some mg ∧
      (∀ pos < mg.LGR_list.length,
          (mg.LGR_list.getD pos default).grid.grid_nr = pos)) := by
  refine ⟨(claim_C9).1 _ _, rfl, ?_⟩
  exact ⟨_, rfl, ((claim_C9).2 mainGridC9 [lgrGridC9a, lgrGridC9b] _ rfl rfl).1⟩

/-- The inner j/i double loop of the active-index traversal enumerates one
k-slab in increasing global-index order. -/
lemma kji_inner (nx ny c : Nat) :
    (List.range ny).flatMap (fun j => (List.range nx).map (fun i => i + j * nx + c))
      = (List.range (nx * ny)).map (· + c) := by
  induction ny with
  | zero => simp
  | succ m ih =>
    rw [List.range_succ, List.flatMap_append, ih, Nat.mul_succ, List.range_add,
      List.map_append]
    congr 1
    rw [List.flatMap_cons, List.flatMap_nil, List.append_nil, List.map_map]
    apply List.map_congr_left
    intro a ha
    simp only [Function.comp_apply]
    ring

/-- The k/j/i triple loop of `ecl_grid_set_active_index` visits the global
indices 0, 1, ..., nx·ny·nz−1 in increasing order. -/
lemma kjiGlobalOrder_eq (nx ny nz : Nat) :
    kjiGlobalOrder nx ny nz = List.range (nx * ny * nz) := by
  unfold kjiGlobalOrder
  induction nz with
  | zero => simp
  | succ m ih =>
    rw [List.range_succ, List.flatMap_append, ih, Nat.mul_succ, List.range_add]
    congr 1
    rw [List.flatMap_cons, List.flatMap_nil, List.append_nil, kji_inner]
    apply List.map_congr_left
    intro a ha
    ring

/-- Is the cell at position `t` active? -/
def cellActiveAt (cells : List EclCell) (t : Nat) : Bool :=
  (cells.getD t default).active

lemma getElem?_eq_some_getD {α : Type} [Inhabited α] (l : List α) (n : Nat)
    (h : n < l.length) : l[n]? = some (l.getD n default) := by
  rw [List.getElem?_eq_getElem h, List.getD_eq_getElem?_getD,
    List.getElem?_eq_getElem h]
  rfl

lemma getD_set_ne {α : Type} {l : List α} {n t : Nat} {v d : α}
    (h : n ≠ t) : (l.set n v).getD t d = l.getD t d := by
  rw [List.getD_eq_getElem?_getD, List.getElem?_set_ne h,
    ← List.getD_eq_getElem?_getD]

lemma getD_set_self {α : Type} {l : List α} {n : Nat} {v d : α}
    (h : n < l.length) : (l.set n v).getD n d = v := by
  rw [List.getD_eq_getElem?_getD, List.getElem?_set_self h]
  rfl

/-- Behaviour of the first `n` iterations of the `ecl_grid_set_active_index`
loop: lengths are preserved, the counter equals the number of active cells
among the first `n`, later cells are untouched, and each visited cell's
`active_index` has been set to its dense rank (or −1). -/
lemma set_active_fold (cells0 : List EclCell) (n : Nat) (hn : n ≤ cells0.length) :
    ((List.range n).foldl set_active_index_step (cells0, 0)).1.length
        = cells0.length ∧
    ((List.range n).foldl set_active_index_step (cells0, 0)).2 =
      (List.range n).countP (cellActiveAt cells0) ∧
    (∀ t, n ≤ t →
      ((List.range n).foldl set_active_index_step (cells0, 0)).1.getD t default
        = cells0.getD t default) ∧
    (∀ t, t < n →
      ((List.range n).foldl set_active_index_step (cells0, 0)).1.getD t default
        = { cells0.getD t default with
            active_index :=
              if (cells0.getD t default).active then
                Int.ofNat ((List.range t).countP (cellActiveAt cells0))
              else -1 }) := by
  induction n with
  | zero => exact ⟨rfl, rfl, fun t _ => rfl, fun t ht => absurd ht (Nat.not_lt_zero t)⟩
  | succ n ih =>
    obtain ⟨ihlen, ihcnt, ihhi, ihlo⟩ := ih (Nat.le_of_succ_le hn)
    have hnlen : n < cells0.length := hn
    rw [List.range_succ]
    simp only [List.foldl_append, List.foldl_cons, List.foldl_nil]
    set st := (List.range n).foldl set_active_index_step (cells0, 0) with hst
    have hcell : st.1.getD n default = cells0.getD n default := ihhi n le_rfl
    have h1 : st.1[n]? = some (cells0.getD n default) := by
      rw [getElem?_eq_some_getD st.1 n (ihlen ▸ hnlen), hcell]
    have hgetD : cells0.getD n default = cells0[n]?.getD default :=
      List.getD_eq_getElem?_getD cells0 n default
    cases hact : (cells0.getD n default).active with
    | true =>
      simp only [set_active_index_step, h1, hact, if_true]
      refine ⟨by simp [ihlen], ?_, ?_, ?_⟩
      · have hact2 : (cells0[n]?.getD default).active = true := by
          rw [← hgetD]; exact hact
        rw [List.countP_append, ihcnt]
        simp [List.countP_cons, List.countP_nil, cellActiveAt, hact2]
      · intro t ht
        rw [getD_set_ne (by omega), ihhi t (by omega)]
      · intro t ht
        rcases Nat.lt_or_ge t n with hlt | hge
        · rw [getD_set_ne (by omega)]
          exact ihlo t hlt
        · have htn : t = n := by omega
          subst htn
          rw [getD_set_self (ihlen ▸ hnlen), ihcnt, if_pos hact, hact]
    | false =>
      simp only [set_active_index_step, h1, hact, Bool.false_eq_true, if_false]
      refine ⟨by simp [ihlen], ?_, ?_, ?_⟩
      · have hact2 : (cells0[n]?.getD default).active = false := by
          rw [← hgetD]; exact hact
        rw [List.countP_append, ihcnt]
        simp [List.countP_cons, List.countP_nil, cellActiveAt, hact2]
      · intro t ht
        rw [getD_set_ne (by omega), ihhi t (by omega)]
      · intro t ht
        rcases Nat.lt_or_ge t n with hlt | hge
        · rw [getD_set_ne (by omega)]
          exact ihlo t hlt
        · have htn : t = n := by omega
          subst htn
          rw [getD_set_self (ihlen ▸ hnlen),
            if_neg (by rw [hact]; simp), hact]

/-- Counting active positions is strictly monotone past an active position. -/
lemma countP_range_lt (P : Nat → Bool) (n len : Nat) (hn : n < len)
    (hP : P n = true) :
    (List.range n).countP P < (List.range len).countP P := by
  have hsplit : len = (n + 1) + (len - (n + 1)) := by omega
  rw [hsplit, List.range_add, List.countP_append, List.range_succ,
    List.countP_append]
  have : List.countP P [n] = 1 := by simp [hP]
  omega

/-- Behaviour of the first `n` iterations of the `ecl_grid_realloc_index_map`
loop: `index_map` receives one entry per visited cell and `inv_index_map`
is the (ranked) list of visited active positions followed by the untouched
tail of the scratch buffer. -/
lemma realloc_fold (cells : List EclCell) (total : Nat)
    (hrank : ∀ t < cells.length, (cells.getD t default).active = true →
      (cells.getD t default).active_index =
        Int.ofNat ((List.range t).countP (cellActiveAt cells)))
    (htotal : total = (List.range cells.length).countP (cellActiveAt cells))
    (n : Nat) (hn : n ≤ cells.length) :
    ((List.range n).foldl (realloc_index_map_step cells)
        ([], List.replicate total 0)).1 =
      (List.range n).map (fun t =>
        if cellActiveAt cells t then (cells.getD t default).active_index
        else -1) ∧
    ((List.range n).foldl (realloc_index_map_step cells)
        ([], List.replicate total 0)).2 =
      ((List.range n).filter (cellActiveAt cells)).map (fun t => Int.ofNat t)
        ++ List.replicate (total - (List.range n).countP (cellActiveAt cells)) 0 := by
  induction n with
  | zero => simp
  | succ n ih =>
    obtain ⟨ih1, ih2⟩ := ih (Nat.le_of_succ_le hn)
    have hnlen : n < cells.length := hn
    rw [List.range_succ]
    simp only [List.foldl_append, List.foldl_cons, List.foldl_nil]
    set st := (List.range n).foldl (realloc_index_map_step cells)
      ([], List.replicate total 0) with hst
    have h1 : cells[n]? = some (cells.getD n default) :=
      getElem?_eq_some_getD cells n hnlen
    have hcnt : ((List.range n).filter (cellActiveAt cells)).length =
        (List.range n).countP (cellActiveAt cells) :=
      (List.countP_eq_length_filter _ _).symm
    cases hact : (cells.getD n default).active with
    | true =>
      have hPn : cellActiveAt cells n = true := by
        simp [cellActiveAt, ← List.getD_eq_getElem?_getD, hact]
      simp only [realloc_index_map_step, h1, hact, if_true]
      constructor
      · rw [ih1, List.map_append]
        congr 1
        simp [hPn]
      · have hidx : (cells.getD n default).active_index =
            Int.ofNat ((List.range n).countP (cellActiveAt cells)) :=
          hrank n hnlen hact
        have hlt : (List.range n).countP (cellActiveAt cells) < total := by
          rw [htotal]
          exact countP_range_lt _ n cells.length hnlen hPn
        rw [ih2, hidx]
        have hlenA : (((List.range n).filter (cellActiveAt cells)).map
            (fun t => Int.ofNat t)).length =
            (List.range n).countP (cellActiveAt cells) := by
          rw [List.length_map, hcnt]
        rw [show (Int.ofNat ((List.range n).countP (cellActiveAt cells))).toNat
            = (List.range n).countP (cellActiveAt cells) from rfl]
        rw [List.set_append_right _ _ (by omega)]
        have hrep : List.replicate
            (total - (List.range n).countP (cellActiveAt cells)) (0 : Int) =
            0 :: List.replicate
              (total - (List.range n).countP (cellActiveAt cells) - 1) 0 := by
          rw [← List.replicate_succ]
          congr 1
          omega
        rw [hlenA, Nat.sub_self, hrep, List.set_cons_zero]
        rw [List.filter_append, List.countP_append, List.map_append]
        simp only [List.filter_cons, hPn, if_true, List.filter_nil,
          List.countP_cons, List.countP_nil, List.map_cons, List.map_nil]
        rw [List.append_cons]
        congr 2
    | false =>
      have hPn : cellActiveAt cells n = false := by
        simp [cellActiveAt, ← List.getD_eq_getElem?_getD, hact]
      simp only [realloc_index_map_step, h1, hact, Bool.false_eq_true, if_false]
      constructor
      · rw [ih1, List.map_append]
        congr 1
        simp [hPn]
      · rw [ih2, List.filter_append, List.countP_append]
        simp [List.filter_cons, hPn, List.countP_cons]

/-- Combined behaviour of `ecl_grid_update_index` on a well-sized grid:
active flags survive, `active_index` holds the dense traversal rank,
`total_active` counts the active cells, `index_map` maps each global index
to that rank (or −1), and `inv_index_map` is exactly the ordered list of
active global indices. -/
lemma update_index_spec (g : EclGrid) (hlen : g.cells.length = g.size) :
    (ecl_grid_update_index g).cells.length = g.size ∧
    (∀ t, (ecl_grid_update_index g).cells.getD t default =
      { g.cells.getD t default with
        active_index :=
          if t < g.size then
            (if (g.cells.getD t default).active then
              Int.ofNat ((List.range t).countP (cellActiveAt g.cells))
            else -1)
          else (g.cells.getD t default).active_index }) ∧
    (ecl_grid_update_index g).total_active =
      (List.range g.size).countP (cellActiveAt g.cells) ∧
    (ecl_grid_update_index g).index_map =
      (List.range g.size).map (fun t =>
        if cellActiveAt g.cells t then
          Int.ofNat ((List.range t).countP (cellActiveAt g.cells))
        else -1) ∧
    (ecl_grid_update_index g).inv_index_map =
      ((List.range g.size).filter (cellActiveAt g.cells)).map
        (fun t => Int.ofNat t) := by
  obtain ⟨flen, fcnt, fhi, flo⟩ :=
    set_active_fold g.cells g.cells.length le_rfl
  set st := (List.range g.cells.length).foldl set_active_index_step
    (g.cells, 0) with hstdef
  have hg1cells : (ecl_grid_set_active_index g).cells = st.1 := by
    simp only [ecl_grid_set_active_index, kjiGlobalOrder_eq]
    rw [show g.nx * g.ny * g.nz = g.size from rfl, ← hlen]
  have hg1total : (ecl_grid_set_active_index g).total_active = st.2 := by
    simp only [ecl_grid_set_active_index, kjiGlobalOrder_eq]
    rw [show g.nx * g.ny * g.nz = g.size from rfl, ← hlen]
  have hPeq : cellActiveAt st.1 = cellActiveAt g.cells := by
    funext t
    rcases Nat.lt_or_ge t g.cells.length with hlt | hge
    · simp only [cellActiveAt, flo t hlt]
    · simp only [cellActiveAt, fhi t hge]
  have hcells' : (ecl_grid_update_index g).cells = st.1 := by
    simp only [ecl_grid_update_index, ecl_grid_realloc_index_map]
    exact hg1cells
  have htotal' : (ecl_grid_update_index g).total_active = st.2 := by
    simp only [ecl_grid_update_index, ecl_grid_realloc_index_map]
    exact hg1total
  have hrank1 : ∀ t < st.1.length, (st.1.getD t default).active = true →
      (st.1.getD t default).active_index =
        Int.ofNat ((List.range t).countP (cellActiveAt st.1)) := by
    intro t ht hat
    rw [flen] at ht
    rw [flo t ht] at hat ⊢
    simp only at hat
    simp only [hat, if_pos, hPeq]
  have htotal1 : st.2 = (List.range st.1.length).countP (cellActiveAt st.1) := by
    rw [flen, hPeq, fcnt]
  obtain ⟨r1, r2⟩ := realloc_fold st.1 st.2 hrank1 htotal1 st.1.length le_rfl
  have himap : (ecl_grid_update_index g).index_map =
      ((List.range st.1.length).foldl (realloc_index_map_step st.1)
        ([], List.replicate st.2 0)).1 := by
    simp only [ecl_grid_update_index, ecl_grid_realloc_index_map, hg1cells,
      hg1total]
  have hinv : (ecl_grid_update_index g).inv_index_map =
      ((List.range st.1.length).foldl (realloc_index_map_step st.1)
        ([], List.replicate st.2 0)).2 := by
    simp only [ecl_grid_update_index, ecl_grid_realloc_index_map, hg1cells,
      hg1total]
  refine ⟨by rw [hcells', flen, hlen], ?_, ?_, ?_, ?_⟩
  · intro t
    rw [hcells']
    rcases Nat.lt_or_ge t g.cells.length with hlt | hge
    · rw [flo t hlt]
      have : t < g.size := by omega
      simp [this]
    · rw [fhi t hge]
      have : ¬ (t < g.size) := by omega
      simp [this]
  · rw [htotal', fcnt, hlen]
  · rw [himap, r1, flen, hlen, hPeq]
    apply List.map_congr_left
    intro t ht
    rw [List.mem_range] at ht
    cases hPt : cellActiveAt g.cells t with
    | true =>
      simp only [if_true, hPt]
      have htl : t < g.cells.length := by omega
      rw [flo t htl]
      have hat : (g.cells.getD t default).active = true := hPt
      simp [← List.getD_eq_getElem?_getD, hat]
    | false =>
      rw [if_neg (by simp), if_neg (by simp)]
  · rw [hinv, r2, flen, hlen, hPeq, htotal1, flen, hlen, hPeq, Nat.sub_self]
    simp

lemma toNat_ofNat_eq (n : Nat) : (Int.ofNat n).toNat = n := rfl

lemma getD_map_range (f : Nat → Int) (gi n : Nat) (h : gi < n) :
    ((List.range n).map f).getD gi 0 = f gi := by
  rw [List.getD_eq_getElem?_getD, List.getElem?_map, List.getElem?_range h]
  rfl

lemma getD_range (m n : Nat) (h : n < m) : (List.range m).getD n 0 = n := by
  rw [List.getD_eq_getElem?_getD, List.getElem?_range h]
  rfl

lemma getD_map_ofNat (l : List Nat) (a : Nat) (h : a < l.length) :
    (l.map (fun t => Int.ofNat t)).getD a 0 = Int.ofNat (l.getD a 0) := by
  rw [List.getD_eq_getElem?_getD, List.getElem?_map,
    List.getElem?_eq_getElem h, List.getD_eq_getElem?_getD,
    List.getElem?_eq_getElem h]
  rfl

/-- The element of a filtered list at the position given by the prefix
count of an accepted element is that element. -/
lemma filter_getD_rank (P : Nat → Bool) :
    ∀ (l : List Nat) (n : Nat), n < l.length → P (l.getD n 0) = true →
      (l.filter P).getD ((l.take n).countP P) 0 = l.getD n 0 := by
  intro l
  induction l with
  | nil => intro n hn; exact absurd hn (by simp)
  | cons x xs ih =>
    intro n hn hP
    cases n with
    | zero =>
      simp only [List.getD_cons_zero] at hP
      simp [List.filter_cons, hP]
    | succ n =>
      simp only [List.getD_cons_succ] at hP ⊢
      have hn' : n < xs.length := by simpa using hn
      rw [List.take_succ_cons, List.countP_cons, List.filter_cons]
      cases hPx : P x with
      | true =>
        simp only [hPx, if_true]
        rw [List.getD_cons_succ]
        exact ih n hn' hP
      | false =>
        simp only [hPx, Bool.false_eq_true, if_false, Nat.add_zero]
        exact ih n hn' hP

/-- Every position of a filtered list is witnessed by a source position
whose prefix count is that position. -/
lemma filter_getD_exists (P : Nat → Bool) :
    ∀ (l : List Nat) (a : Nat), a < (l.filter P).length →
      ∃ n < l.length, l.getD n 0 = (l.filter P).getD a 0 ∧
        (l.take n).countP P = a ∧ P (l.getD n 0) = true := by
  intro l
  induction l with
  | nil => intro a ha; exact absurd ha (by simp)
  | cons x xs ih =>
    intro a ha
    rw [List.filter_cons] at ha ⊢
    cases hPx : P x with
    | true =>
      rw [if_pos hPx] at ha
      rw [if_pos rfl]
      cases a with
      | zero =>
        exact ⟨0, by simp, by simp, by simp, by simpa using hPx⟩
      | succ a =>
        have ha' : a < (xs.filter P).length := by simpa using ha
        obtain ⟨n, hn, h1, h2, h3⟩ := ih a ha'
        refine ⟨n + 1, by simpa using hn, by simpa using h1, ?_, by simpa using h3⟩
        rw [List.take_succ_cons, List.countP_cons, hPx]
        simp [h2]
    | false =>
      rw [if_neg (by simp [hPx])] at ha
      rw [if_neg (by simp)]
      obtain ⟨n, hn, h1, h2, h3⟩ := ih a ha
      refine ⟨n + 1, by simpa using hn, by simpa using h1, ?_, by simpa using h3⟩
      rw [List.take_succ_cons, List.countP_cons, hPx]
      simp [h2]

/-- Counting active entries through the range/getD view agrees with
counting actives in the cell list itself. -/
lemma countP_range_cells (cells : List EclCell) :
    ∀ n ≤ cells.length,
      (List.range n).countP (cellActiveAt cells) =
        (cells.take n).countP (fun c => c.active) := by
  intro n
  induction n with
  | zero => intro _; simp
  | succ n ih =>
    intro hn
    have hn' : n < cells.length := hn
    rw [List.range_succ, List.countP_append, ih (Nat.le_of_succ_le hn),
      List.take_succ, List.getElem?_eq_getElem hn', List.countP_append]
    simp only [List.countP_cons, List.countP_nil, Option.toList_some]
    have : cellActiveAt cells n = cells[n].active := by
      simp [cellActiveAt, List.getD_eq_getElem?_getD,
        List.getElem?_eq_getElem hn']
    simp [this]

/-- Claim C1: after the index-map refresh pass, active indices are a dense
0-based rank in k-outer/j/i-inner traversal order; `index_map` holds each
active cell's `active_index` (−1 for inactive cells); `inv_index_map` is
the ordered list of active global indices (the exact inverse) with exactly
`total_active` entries; and `total_active` counts the active cells. -/
theorem claim_C1 (g : EclGrid) (hlen : g.cells.length = g.size) :
    (∀ gi < g.size,
        ((ecl_grid_update_index g).cells.getD gi default).active
            = (g.cells.getD gi default).active ∧
        ((ecl_grid_update_index g).cells.getD gi default).active_index =
          (if (g.cells.getD gi default).active then
            Int.ofNat ((List.range gi).countP (cellActiveAt g.cells))
          else -1)) ∧
    (ecl_grid_update_index g).index_map.length = g.size ∧
    (∀ gi < g.size, (ecl_grid_update_index g).index_map.getD gi 0 =
        if (g.cells.getD gi default).active then
          ((ecl_grid_update_index g).cells.getD gi default).active_index
        else -1) ∧
    (ecl_grid_update_index g).inv_index_map =
      ((kjiGlobalOrder g.nx g.ny g.nz).filter (cellActiveAt g.cells)).map
        (fun t => Int.ofNat t) ∧
    (ecl_grid_update_index g).inv_index_map.length
        = (ecl_grid_update_index g).total_active ∧
    (∀ a < (ecl_grid_update_index g).total_active,
        (ecl_grid_update_index g).index_map.getD
            ((ecl_grid_update_index g).inv_index_map.getD a 0).toNat 0
          = Int.ofNat a) ∧
    (∀ gi < g.size, (g.cells.getD gi default).active = true →
        (ecl_grid_update_index g).inv_index_map.getD
            ((ecl_grid_update_index g).index_map.getD gi 0).toNat 0
          = Int.ofNat gi) ∧
    (ecl_grid_update_index g).total_active
        = g.cells.countP (fun c => c.active) := by
  obtain ⟨slen, scell, stotal, simap, sinv⟩ := update_index_spec g hlen
  have hfillen : ((List.range g.size).filter (cellActiveAt g.cells)).length
      = (List.range g.size).countP (cellActiveAt g.cells) :=
    (List.countP_eq_length_filter _ _).symm
  refine ⟨?_, ?_, ?_, ?_, ?_, ?_, ?_, ?_⟩
  · intro gi hgi
    rw [scell gi]
    constructor
    · rfl
    · simp only [hgi, if_pos]
  · rw [simap, List.length_map, List.length_range]
  · intro gi hgi
    rw [simap, getD_map_range _ _ _ hgi]
    cases hact : (g.cells.getD gi default).active with
    | true =>
      have hP : cellActiveAt g.cells gi = true := hact
      rw [if_pos hP, if_pos rfl, scell gi]
      simp [hgi, ← List.getD_eq_getElem?_getD, hact]
    | false =>
      have hP : cellActiveAt g.cells gi = false := hact
      rw [if_neg (by simp [hP]), if_neg (by simp [hact])]
  · rw [sinv, kjiGlobalOrder_eq]
    rfl
  · rw [sinv, stotal, List.length_map, hfillen]
  · intro a ha
    rw [stotal] at ha
    have ha' : a < ((List.range g.size).filter (cellActiveAt g.cells)).length := by
      omega
    obtain ⟨n, hn, h1, h2, h3⟩ := filter_getD_exists (cellActiveAt g.cells)
      (List.range g.size) a ha'
    rw [List.length_range] at hn
    rw [getD_range _ _ hn] at h1 h3
    rw [List.take_range] at h2
    have hmin : min n g.size = n := by omega
    rw [hmin] at h2
    rw [sinv, getD_map_ofNat _ _ ha', ← h1, toNat_ofNat_eq, simap,
      getD_map_range _ _ _ hn, if_pos h3, h2]
  · intro gi hgi hact
    have hP : cellActiveAt g.cells gi = true := hact
    rw [simap, getD_map_range _ _ _ hgi, if_pos hP, toNat_ofNat_eq, sinv]
    have hrk : (List.range gi).countP (cellActiveAt g.cells) <
        ((List.range g.size).filter (cellActiveAt g.cells)).length := by
      rw [hfillen]
      exact countP_range_lt _ gi g.size hgi hP
    rw [getD_map_ofNat _ _ hrk]
    have := filter_getD_rank (cellActiveAt g.cells) (List.range g.size) gi
      (by simpa using hgi) (by rwa [getD_range _ _ hgi])
    rw [List.take_range, getD_range _ _ hgi] at this
    have hmin : min gi g.size = gi := by omega
    rw [hmin] at this
    rw [this]
  · rw [stotal, ← hlen, countP_range_cells g.cells g.cells.length le_rfl,
      List.take_length]

theorem claim_C1_witness :
    testGrid.cells.length = testGrid.size ∧
    ((∀ gi < testGrid.size,
        ((ecl_grid_update_index testGrid).cells.getD gi default).active
            = (testGrid.cells.getD gi default).active ∧
        ((ecl_grid_update_index testGrid).cells.getD gi default).active_index =
          (if (testGrid.cells.getD gi default).active then
            Int.ofNat ((List.range gi).countP (cellActiveAt testGrid.cells))
          else -1)) ∧
    (ecl_grid_update_index testGrid).index_map.length = testGrid.size ∧
    (∀ gi < testGrid.size,
        (ecl_grid_update_index testGrid).index_map.getD gi 0 =
        if (testGrid.cells.getD gi default).active then
          ((ecl_grid_update_index testGrid).cells.getD gi default).active_index
        else -1) ∧
    (ecl_grid_update_index testGrid).inv_index_map =
      ((kjiGlobalOrder testGrid.nx testGrid.ny testGrid.nz).filter
        (cellActiveAt testGrid.cells)).map (fun t => Int.ofNat t) ∧
    (ecl_grid_update_index testGrid).inv_index_map.length
        = (ecl_grid_update_index testGrid).total_active ∧
    (∀ a < (ecl_grid_update_index testGrid).total_active,
        (ecl_grid_update_index testGrid).index_map.getD
            ((ecl_grid_update_index testGrid).inv_index_map.getD a 0).toNat 0
          = Int.ofNat a) ∧
    (∀ gi < testGrid.size,
        (testGrid.cells.getD gi default).active = true →
        (ecl_grid_update_index testGrid).inv_index_map.getD
            ((ecl_grid_update_index testGrid).index_map.getD gi 0).toNat 0
          = Int.ofNat gi) ∧
    (ecl_grid_update_index testGrid).total_active
        = testGrid.cells.countP (fun c => c.active)) :=
  ⟨rfl, claim_C1 testGrid rfl⟩

/-- Validity of (i,j,k) bounds the unchecked global index into [0, size). -/
lemma global_index3_bounds (g : EclGrid) (i j k : Int)
    (h : ecl_grid_ijk_valid g i j k = true) :
    0 ≤ ecl_grid_get_global_index__ g i j k ∧
    ecl_grid_get_global_index__ g i j k < (g.size : Int) := by
  simp only [ecl_grid_ijk_valid, Bool.and_eq_true, decide_eq_true_eq] at h
  obtain ⟨⟨⟨⟨⟨h0i, h1i⟩, h0j⟩, h1j⟩, h0k⟩, h1k⟩ := h
  have hN : (0 : Int) < g.nx := lt_of_le_of_lt h0i h1i
  have hM : (0 : Int) < g.ny := lt_of_le_of_lt h0j h1j
  constructor
  · apply add_nonneg (add_nonneg h0i (mul_nonneg h0j (Int.natCast_nonneg _)))
    exact mul_nonneg (mul_nonneg h0k (Int.natCast_nonneg _)) (Int.natCast_nonneg _)
  · have hij : i + j * (g.nx : Int) < (g.nx : Int) * g.ny := by
      calc i + j * (g.nx : Int) < (g.nx : Int) + j * g.nx :=
            add_lt_add_right h1i _
        _ = (j + 1) * g.nx := by ring
        _ ≤ (g.ny : Int) * g.nx := by
            apply mul_le_mul_of_nonneg_right _ (le_of_lt hN)
            omega
        _ = (g.nx : Int) * g.ny := by ring
    have hk : ecl_grid_get_global_index__ g i j k <
        (k + 1) * ((g.nx : Int) * g.ny) := by
      simp only [ecl_grid_get_global_index__]
      calc i + j * (g.nx : Int) + k * g.nx * g.ny
          < (g.nx : Int) * g.ny + k * g.nx * g.ny := by linarith [hij]
        _ = (k + 1) * ((g.nx : Int) * g.ny) := by ring
    calc ecl_grid_get_global_index__ g i j k
        < (k + 1) * ((g.nx : Int) * g.ny) := hk
      _ ≤ (g.nz : Int) * ((g.nx : Int) * g.ny) := by
          apply mul_le_mul_of_nonneg_right _ (le_of_lt (mul_pos hN hM))
          omega
      _ = ((g.size : Nat) : Int) := by
          simp only [EclGrid.size]
          push_cast
          ring

/-- Claim C3: value-by-index lookup on a built grid resolves (i,j,k)
through the global index when the array has nx·ny·nz entries, through the
active index when it has total_active entries, and aborts for every other
length. -/
theorem claim_C3 (g0 : EclGrid) (hlen : g0.cells.length = g0.size)
    (kw : List ℚ) (i j k : Int) :
    (kw.length = g0.size →
      ecl_grid_get_property (ecl_grid_update_index g0) kw i j k =
        (ecl_grid_get_global_index3 (ecl_grid_update_index g0) i j k).map
          (fun gi => kw.getD gi.toNat 0)) ∧
    (kw.length = (ecl_grid_update_index g0).total_active →
      ecl_grid_get_property (ecl_grid_update_index g0) kw i j k =
        (ecl_grid_get_active_index3 (ecl_grid_update_index g0) i j k).map
          (fun ai => if 0 ≤ ai then kw.getD ai.toNat 0 else -1)) ∧
    (kw.length ≠ g0.size →
      kw.length ≠ (ecl_grid_update_index g0).total_active →
      ecl_grid_get_property (ecl_grid_update_index g0) kw i j k = none) := by
  have hszfold : (ecl_grid_update_index g0).nx * (ecl_grid_update_index g0).ny *
      (ecl_grid_update_index g0).nz = g0.size := rfl
  refine ⟨?_, ?_, ?_⟩
  · intro hkw
    simp only [ecl_grid_get_property, hszfold]
    rw [if_pos hkw]
    cases hvalid : ecl_grid_ijk_valid (ecl_grid_update_index g0) i j k with
    | false =>
      simp [ecl_grid_get_global_index3, hvalid]
    | true =>
      obtain ⟨hge, _⟩ :=
        global_index3_bounds (ecl_grid_update_index g0) i j k hvalid
      simp only [ecl_grid_get_global_index3, hvalid, if_true, Option.map_some']
      rw [if_pos hge]
  · intro hkw
    by_cases heq : kw.length = g0.size
    · obtain ⟨slen, scell, stotal, simap, sinv⟩ := update_index_spec g0 hlen
      have hall : ∀ t < g0.size, cellActiveAt g0.cells t = true := by
        have hcnt : (List.range g0.size).countP (cellActiveAt g0.cells)
            = (List.range g0.size).length := by
          rw [List.length_range, ← stotal, ← hkw, heq]
        intro t ht
        exact List.countP_eq_length.1 hcnt t (List.mem_range.2 ht)
      simp only [ecl_grid_get_property, hszfold]
      rw [if_pos heq]
      cases hvalid : ecl_grid_ijk_valid (ecl_grid_update_index g0) i j k with
      | false =>
        simp [ecl_grid_get_global_index3, ecl_grid_get_active_index3, hvalid]
      | true =>
        obtain ⟨hge, hlt⟩ :=
          global_index3_bounds (ecl_grid_update_index g0) i j k hvalid
        set gidx := ecl_grid_get_global_index__ (ecl_grid_update_index g0) i j k
          with hgidx
        have hszeq : (ecl_grid_update_index g0).size = g0.size := rfl
        rw [hszeq] at hlt
        have hlt' : gidx.toNat < g0.size := by omega
        have hrank : (List.range gidx.toNat).countP (cellActiveAt g0.cells)
            = gidx.toNat := by
          have : ∀ a ∈ List.range gidx.toNat, cellActiveAt g0.cells a = true := by
            intro a ha
            rw [List.mem_range] at ha
            exact hall a (by omega)
          rw [List.countP_eq_length.2 this, List.length_range]
        have hactidx : ecl_grid_get_active_index1 (ecl_grid_update_index g0) gidx
            = Int.ofNat gidx.toNat := by
          simp only [ecl_grid_get_active_index1, simap]
          rw [getD_map_range _ _ _ hlt', if_pos (hall gidx.toNat hlt'), hrank]
        simp only [ecl_grid_get_global_index3, ecl_grid_get_active_index3,
          hvalid, if_true, Option.map_some']
        rw [if_pos hge, hactidx]
        rw [if_pos (by exact Int.natCast_nonneg _), toNat_ofNat_eq]
    · simp only [ecl_grid_get_property, hszfold]
      rw [if_neg heq, if_pos hkw]
      cases hai : ecl_grid_get_active_index3 (ecl_grid_update_index g0) i j k with
      | none => rfl
      | some ai =>
        rw [Option.map_some']
        show (if 0 ≤ ai then some (kw.getD ai.toNat 0) else some (-1)) = _
        by_cases hge : 0 ≤ ai
        · rw [if_pos hge, if_pos hge]
        · rw [if_neg hge, if_neg hge]
  · intro h1 h2
    simp only [ecl_grid_get_property, hszfold]
    rw [if_neg h1, if_neg h2]

/-- A dense-length property array for the C3 witness grid. -/
def kwC3 : List ℚ := [10, 20, 30, 40]

theorem claim_C3_witness :
    testGrid.cells.length = testGrid.size ∧
    ((kwC3.length = testGrid.size →
      ecl_grid_get_property (ecl_grid_update_index testGrid) kwC3 1 0 0 =
        (ecl_grid_get_global_index3 (ecl_grid_update_index testGrid) 1 0 0).map
          (fun gi => kwC3.getD gi.toNat 0)) ∧
    (kwC3.length = (ecl_grid_update_index testGrid).total_active →
      ecl_grid_get_property (ecl_grid_update_index testGrid) kwC3 1 0 0 =
        (ecl_grid_get_active_index3 (ecl_grid_update_index testGrid) 1 0 0).map
          (fun ai => if 0 ≤ ai then kwC3.getD ai.toNat 0 else -1)) ∧
    (kwC3.length ≠ testGrid.size →
      kwC3.length ≠ (ecl_grid_update_index testGrid).total_active →
      ecl_grid_get_property (ecl_grid_update_index testGrid) kwC3 1 0 0 = none)) :=
  ⟨rfl, claim_C3 testGrid rfl kwC3 1 0 0⟩

/-- Bound for the global-index formula. -/
lemma gidx_lt {nx ny nz i j k : Nat} (hi : i < nx) (hj : j < ny) (hk : k < nz) :
    i + j * nx + k * nx * ny < nx * ny * nz := by
  have h1 : i + j * nx < nx * ny := by
    calc i + j * nx < nx + j * nx := by omega
      _ = (j + 1) * nx := by ring
      _ ≤ ny * nx := Nat.mul_le_mul_right nx hj
      _ = nx * ny := by ring
  calc i + j * nx + k * nx * ny < nx * ny + k * (nx * ny) := by
        have : k * nx * ny = k * (nx * ny) := by ring
        omega
    _ = (k + 1) * (nx * ny) := by ring
    _ ≤ nz * (nx * ny) := Nat.mul_le_mul_right (nx * ny) hk
    _ = nx * ny * nz := by ring

/-- Membership in a box order decomposes into coordinates. -/
lemma mem_boxOrder {nx ny : Nat} {i1 i2 j1 j2 k1 k2 gi : Nat} :
    gi ∈ boxOrder nx ny i1 i2 j1 j2 k1 k2 ↔
      ∃ k, (k1 ≤ k ∧ k < k1 + (k2 - k1)) ∧
      ∃ j, (j1 ≤ j ∧ j < j1 + (j2 - j1)) ∧
      ∃ i, (i1 ≤ i ∧ i < i1 + (i2 - i1)) ∧ gi = i + j * nx + k * nx * ny := by
  simp only [boxOrder, List.mem_flatMap, List.mem_map, List.mem_range'_1]
  constructor
  · rintro ⟨k, hk, j, hj, i, hi, rfl⟩
    exact ⟨k, by omega, j, by omega, i, by omega, rfl⟩
  · rintro ⟨k, hk, j, hj, i, hi, rfl⟩
    exact ⟨k, by omega, j, by omega, i, by omega, rfl⟩

/-- All elements of a clipped box order are valid global indices. -/
lemma boxOrder_lt {nx ny nz : Nat} {i1 i2 j1 j2 k1 k2 : Nat}
    (hi2 : i2 ≤ nx) (hj2 : j2 ≤ ny) (hk2 : k2 ≤ nz) :
    ∀ gi ∈ boxOrder nx ny i1 i2 j1 j2 k1 k2, gi < nx * ny * nz := by
  intro gi hgi
  obtain ⟨k, hk, j, hj, i, hi, rfl⟩ := mem_boxOrder.1 hgi
  exact gidx_lt (by omega) (by omega) (by omega)

/-- Distinct in-range coordinate triples give distinct global indices. -/
lemma digit_unique {nx ny : Nat} {i i' j j' k k' : Nat}
    (hi : i < nx) (hi' : i' < nx) (hj : j < ny) (hj' : j' < ny)
    (heq : i + j * nx + k * nx * ny = i' + j' * nx + k' * nx * ny) :
    i = i' ∧ j = j' ∧ k = k' := by
  have hb : i + j * nx < nx * ny := by
    calc i + j * nx < nx + j * nx := by omega
      _ = (j + 1) * nx := by ring
      _ ≤ ny * nx := Nat.mul_le_mul_right nx hj
      _ = nx * ny := by ring
  have hb' : i' + j' * nx < nx * ny := by
    calc i' + j' * nx < nx + j' * nx := by omega
      _ = (j' + 1) * nx := by ring
      _ ≤ ny * nx := Nat.mul_le_mul_right nx hj'
      _ = nx * ny := by ring
  have hstep : ∀ a b : Nat, a < b →
      nx * ny + a * (nx * ny) ≤ b * (nx * ny) := by
    intro a b hab
    calc nx * ny + a * (nx * ny) = (a + 1) * (nx * ny) := by ring
      _ ≤ b * (nx * ny) := Nat.mul_le_mul_right (nx * ny) hab
  have hkk : k = k' := by
    have e1 : k * nx * ny = k * (nx * ny) := by ring
    have e2 : k' * nx * ny = k' * (nx * ny) := by ring
    rcases Nat.lt_trichotomy k k' with hlt | heqk | hgt
    · have := hstep k k' hlt
      omega
    · exact heqk
    · have := hstep k' k hgt
      omega
  subst hkk
  have hstep2 : ∀ a b : Nat, a < b → nx + a * nx ≤ b * nx := by
    intro a b hab
    calc nx + a * nx = (a + 1) * nx := by ring
      _ ≤ b * nx := Nat.mul_le_mul_right nx hab
  have hjj : j = j' := by
    rcases Nat.lt_trichotomy j j' with hlt | heqj | hgt
    · have := hstep2 j j' hlt
      omega
    · exact heqj
    · have := hstep2 j' j hgt
      omega
  subst hjj
  omega

/-- A clipped box order has no duplicate global indices. -/
lemma boxOrder_nodup {nx ny : Nat} {i1 i2 j1 j2 k1 k2 : Nat}
    (hi2 : i2 ≤ nx) (hj2 : j2 ≤ ny) :
    (boxOrder nx ny i1 i2 j1 j2 k1 k2).Nodup := by
  unfold boxOrder
  rw [List.nodup_flatMap]
  constructor
  · intro k hk
    rw [List.nodup_flatMap]
    constructor
    · intro j hj
      refine List.Nodup.map ?_ (List.nodup_range' _ _)
      intro a b hab
      have hab2 : a + j * nx + k * nx * ny = b + j * nx + k * nx * ny := hab
      omega
    · refine (List.pairwise_lt_range' j1 (j2 - j1)).imp_of_mem ?_
      intro a b hma hmb hab
      rw [List.mem_range'_1] at hma hmb
      intro gi hga hgb
      rw [List.mem_map] at hga hgb
      obtain ⟨i, hi, rfl⟩ := hga
      obtain ⟨i', hi', heq⟩ := hgb
      rw [List.mem_range'_1] at hi hi'
      have := @digit_unique nx ny i' i b a k k
        (by omega) (by omega) (by omega) (by omega) heq
      omega
  · refine (List.pairwise_lt_range' k1 (k2 - k1)).imp_of_mem ?_
    intro a b hma hmb hab
    intro gi hga hgb
    rw [List.mem_flatMap] at hga hgb
    obtain ⟨j, hj, hga⟩ := hga
    obtain ⟨j', hj', hgb⟩ := hgb
    rw [List.mem_map] at hga hgb
    obtain ⟨i, hi, rfl⟩ := hga
    obtain ⟨i', hi', heq⟩ := hgb
    rw [List.mem_range'_1] at hi hi' hj hj'
    have := @digit_unique nx ny i' i j' j b a
      (by omega) (by omega) (by omega) (by omega) heq
    omega

/-- A visited-threaded box scan over a duplicate-free order returns the
same result as the plain first-hit scan over the not-yet-visited elements. -/
lemma box_scan_eq (cells : List EclCell) (p : Point) :
    ∀ (order : List Nat) (v : List Bool), order.Nodup →
      (∀ gi ∈ order, gi < v.length) →
      (box_scan cells p order v).map Prod.fst =
        scan_first cells p (order.filter fun gi => !(v.getD gi true)) := by
  intro order
  induction order with
  | nil => intro v _ _; rfl
  | cons gi rest ih =>
    intro v hnd hbnd
    have hgi : gi < v.length := hbnd gi (by simp)
    have hnd' : rest.Nodup := hnd.of_cons
    have hgirest : gi ∉ rest := (List.nodup_cons.1 hnd).1
    rw [List.filter_cons]
    cases hv : v.getD gi true with
    | true =>
      rw [box_scan]
      simp only [hv, if_true, Bool.not_true]
      rw [if_neg (by simp)]
      exact ih v hnd' (fun x hx => hbnd x (by simp [hx]))
    | false =>
      rw [box_scan]
      simp only [hv, Bool.not_false, if_true, Bool.false_eq_true, if_false]
      rw [scan_first]
      cases hc : ecl_cell_contains_point (cells.getD gi default) p with
      | none => simp [hc]
      | some b =>
        cases b with
        | true => simp [hc]
        | false =>
          simp only [hc]
          have hfeq : (rest.filter fun gj => !((v.set gi true).getD gj true))
              = rest.filter fun gj => !(v.getD gj true) := by
            apply List.filter_congr
            intro gj hgj
            have hne : gi ≠ gj := fun h => hgirest (h ▸ hgj)
            rw [getD_set_ne hne]
          rw [← hfeq]
          exact ih (v.set gi true) hnd'
            (fun x hx => by rw [List.length_set]; exact hbnd x (by simp [hx]))

/-- After a box scan that found nothing, a cell is marked visited iff it
was visited before or lies in the scanned order. -/
lemma box_scan_visited (cells : List EclCell) (p : Point) :
    ∀ (order : List Nat) (v v' : List Bool),
      (∀ gi ∈ order, gi < v.length) →
      box_scan cells p order v = some (-1, v') →
      v'.length = v.length ∧
      ∀ m, v'.getD m true = (v.getD m true || decide (m ∈ order)) := by
  intro order
  induction order with
  | nil =>
    intro v v' _ hrun
    rw [box_scan] at hrun
    have hv' : v = v' := congrArg Prod.snd (Option.some.inj hrun)
    subst hv'
    exact ⟨rfl, fun m => by simp⟩
  | cons gi rest ih =>
    intro v v' hbnd hrun
    have hgi : gi < v.length := hbnd gi (by simp)
    rw [box_scan] at hrun
    cases hv : v.getD gi true with
    | true =>
      rw [hv, if_pos rfl] at hrun
      obtain ⟨hl, hm⟩ := ih v v' (fun x hx => hbnd x (by simp [hx])) hrun
      refine ⟨hl, fun m => ?_⟩
      rw [hm m]
      by_cases hmgi : m = gi
      · subst hmgi
        rw [hv]
        simp
      · simp [hmgi]
    | false =>
      rw [hv, if_neg (by simp)] at hrun
      cases hc : ecl_cell_contains_point (cells.getD gi default) p with
      | none => rw [hc] at hrun; exact absurd hrun (by simp)
      | some b =>
        cases b with
        | true =>
          rw [hc] at hrun
          exfalso
          have h1 : Int.ofNat gi = -1 := congrArg Prod.fst (Option.some.inj hrun)
          have h2 : (gi : Int) = -1 := h1
          omega
        | false =>
          rw [hc] at hrun
          obtain ⟨hl, hm⟩ := ih (v.set gi true) v'
            (fun x hx => by rw [List.length_set]; exact hbnd x (by simp [hx]))
            hrun
          rw [List.length_set] at hl
          refine ⟨hl, fun m => ?_⟩
          rw [hm m]
          by_cases hmgi : m = gi
          · subst hmgi
            rw [getD_set_self hgi]
            simp
          · rw [getD_set_ne (fun h => hmgi h.symm)]
            simp [hmgi]

/-- First-hit scans compose over list concatenation. -/
lemma scan_first_append (cells : List EclCell) (p : Point) :
    ∀ (l1 l2 : List Nat),
      scan_first cells p (l1 ++ l2) =
        match scan_first cells p l1 with
        | none => none
        | some gi => if gi = -1 then scan_first cells p l2 else some gi := by
  intro l1
  induction l1 with
  | nil =>
    intro l2
    rw [List.nil_append, scan_first]
    simp
  | cons gi rest ih =>
    intro l2
    rw [List.cons_append, scan_first, scan_first]
    cases hc : ecl_cell_contains_point (cells.getD gi default) p with
    | none => rfl
    | some b =>
      cases b with
      | true =>
        show some (Int.ofNat gi) =
          if Int.ofNat gi = -1 then scan_first cells p l2 else some (Int.ofNat gi)
        rw [if_neg (show ¬(Int.ofNat gi = -1) by
          intro h
          have h2 : (gi : Int) = -1 := h
          omega)]
      | false => exact ih l2

/-- A first-hit scan returns −1 or a (non-negative) found index. -/
lemma scan_first_shape (cells : List EclCell) (p : Point) :
    ∀ (l : List Nat) (gi : Int), scan_first cells p l = some gi →
      gi = -1 ∨ 0 ≤ gi := by
  intro l
  induction l with
  | nil =>
    intro gi h
    rw [scan_first] at h
    exact Or.inl (Option.some.inj h).symm
  | cons x rest ih =>
    intro gi h
    rw [scan_first] at h
    cases hc : ecl_cell_contains_point (cells.getD x default) p with
    | none => rw [hc] at h; exact absurd h (by simp)
    | some b =>
      cases b with
      | true =>
        rw [hc] at h
        have := (Option.some.inj h).symm
        subst this
        right
        exact Int.natCast_nonneg x
      | false =>
        rw [hc] at h
        exact ih gi h

/-- Claim C5 (amended): for a well-formed grid and in-range start hint, the
staged point locate equals the first-hit scan over the order: start cell,
clipped half-open [i−1,i+1)×[j−1,j+1)×[k−1,k+1) box, clipped half-open
[i−2,i+2)×[j−2,j+2)×[k−2,k+2) box minus already-visited cells, then the
full wrap-around linear scan. -/
theorem claim_C5_amended (g : EclGrid) (p : Point) (start_index : Int)
    (h0 : 0 ≤ start_index) (_hlt : start_index.toNat < g.size)
    (_hcl : g.cells.length = g.size) :
    ecl_grid_get_global_index_from_xyz g p start_index =
      locate_xyz_amended g p start_index.toNat := by
  have hofNat : Int.ofNat start_index.toNat = start_index := by
    have h := Int.toNat_of_nonneg h0
    exact_mod_cast h
  rw [ecl_grid_get_global_index_from_xyz, locate_xyz_amended, hofNat]
  rw [if_pos h0]
  cases hc0 : ecl_cell_contains_point (g.cells.getD start_index.toNat default) p with
  | none => rfl
  | some b =>
    cases b with
    | true => rfl
    | false =>
      simp only [ecl_grid_box_contains_xyz]
      set i := (ecl_grid_get_ijk1 g start_index).1.toNat with hidef
      set j := (ecl_grid_get_ijk1 g start_index).2.1.toNat with hjdef
      set k := (ecl_grid_get_ijk1 g start_index).2.2.toNat with hkdef
      set b1 := boxOrder g.nx g.ny (i - 1) (min g.nx (i + 1)) (j - 1)
        (min g.ny (j + 1)) (k - 1) (min g.nz (k + 1)) with hb1def
      set b2 := boxOrder g.nx g.ny (i - 2) (min g.nx (i + 2)) (j - 2)
        (min g.ny (j + 2)) (k - 2) (min g.nz (k + 2)) with hb2def
      set v0 : List Bool := List.replicate g.size false with hv0def
      set wrap := wrapOrder g.size start_index.toNat with hwrapdef
      have hb1lt : ∀ gi ∈ b1, gi < g.size := fun gi hgi =>
        boxOrder_lt (min_le_left _ _) (min_le_left _ _) (min_le_left _ _) gi hgi
      have hb2lt : ∀ gi ∈ b2, gi < g.size := fun gi hgi =>
        boxOrder_lt (min_le_left _ _) (min_le_left _ _) (min_le_left _ _) gi hgi
      have hb1nd : b1.Nodup :=
        boxOrder_nodup (min_le_left _ _) (min_le_left _ _)
      have hb2nd : b2.Nodup :=
        boxOrder_nodup (min_le_left _ _) (min_le_left _ _)
      have hv0len : v0.length = g.size := List.length_replicate _ _
      have hv0get : ∀ m, m < g.size → v0.getD m true = false := by
        intro m hm
        rw [List.getD_eq_getElem?_getD, hv0def,
          List.getElem?_replicate_of_lt hm]
        rfl
      have hfilter1 : (b1.filter fun gi => !(v0.getD gi true)) = b1 := by
        apply List.filter_eq_self.2
        intro gi hgi
        rw [hv0get gi (hb1lt gi hgi)]
        rfl
      have heq1 := box_scan_eq g.cells p b1 v0 hb1nd
        (fun gi hgi => by rw [hv0len]; exact hb1lt gi hgi)
      rw [hfilter1] at heq1
      rw [List.append_assoc, scan_first_append, ← heq1]
      cases hres1 : box_scan g.cells p b1 v0 with
      | none => rfl
      | some res1 =>
        obtain ⟨gi1, v1⟩ := res1
        simp only [Option.map_some']
        by_cases hge1 : 0 ≤ gi1
        · rw [if_pos hge1, if_neg (by omega)]
        · have hgim1 : gi1 = -1 := by
            rcases scan_first_shape g.cells p b1 gi1 (by rw [← heq1, hres1]; rfl)
              with h | h
            · exact h
            · exact absurd h hge1
          subst hgim1
          rw [if_neg (by omega), if_pos rfl]
          obtain ⟨hv1len, hv1⟩ := box_scan_visited g.cells p b1 v0 v1
            (fun gi hgi => by rw [hv0len]; exact hb1lt gi hgi) hres1
          have heq2 := box_scan_eq g.cells p b2 v1 hb2nd
            (fun gi hgi => by rw [hv1len, hv0len]; exact hb2lt gi hgi)
          have hfilter2 : (b2.filter fun gi => !(v1.getD gi true)) =
              b2.filter fun gi => decide (gi ∉ b1) := by
            apply List.filter_congr
            intro gi hgi
            rw [hv1 gi, hv0get gi (hb2lt gi hgi)]
            simp [decide_not]
          rw [hfilter2] at heq2
          rw [scan_first_append, ← heq2]
          cases hres2 : box_scan g.cells p b2 v1 with
          | none => rfl
          | some res2 =>
            obtain ⟨gi2, v2⟩ := res2
            simp only [Option.map_some']
            by_cases hge2 : 0 ≤ gi2
            · rw [if_pos hge2, if_neg (by omega)]
            · have hgim2 : gi2 = -1 := by
                rcases scan_first_shape g.cells p (b2.filter fun gi =>
                    decide (gi ∉ b1)) gi2 (by rw [← heq2, hres2]; rfl)
                  with h | h
                · exact h
                · exact absurd h hge2
              subst hgim2
              rw [if_neg (by omega), if_pos rfl]

set_option maxHeartbeats 1600000 in
lemma cex_contains_cube10 :
    ecl_cell_contains_point (cubeCell 10 2) cexPoint = some true := by
  norm_num [cexPoint, cubeCell, ecl_cell_alloc,
    ecl_cell_contains_point, ecl_cell_min_z, ecl_cell_max_z,
    ecl_cell_min_x, ecl_cell_max_x, ecl_cell_min_y, ecl_cell_max_y,
    min2, max2, min4, max4, min8, max8, ecl_cell_get_volume,
    ecl_cell_tet_volume, tetrahedron_volume, ecl_cell_init_tetrahedron,
    tetrahedron_permutations, tetrahedron_contains, point_triple,
    point_sub, List.range_succ]

set_option maxHeartbeats 1600000 in
lemma cex_contains_cube11 :
    ecl_cell_contains_point (cubeCell 11 2) cexPoint = some true := by
  norm_num [cexPoint, cubeCell, ecl_cell_alloc,
    ecl_cell_contains_point, ecl_cell_min_z, ecl_cell_max_z,
    ecl_cell_min_x, ecl_cell_max_x, ecl_cell_min_y, ecl_cell_max_y,
    min2, max2, min4, max4, min8, max8, ecl_cell_get_volume,
    ecl_cell_tet_volume, tetrahedron_volume, ecl_cell_init_tetrahedron,
    tetrahedron_permutations, tetrahedron_contains, point_triple,
    point_sub, List.range_succ]

lemma cex_contains_blank :
    ecl_cell_contains_point ecl_cell_alloc cexPoint = some false := by
  norm_num [cexPoint, ecl_cell_alloc, ecl_cell_contains_point,
    ecl_cell_min_z, ecl_cell_max_z, min2, max2, min4, max4]

lemma int_toNat_two : Int.toNat 2 = 2 := rfl

set_option maxHeartbeats 1600000 in
/-- Claim C5 as stated is refuted: on the 5×1×1 grid `cexGrid` whose cells
0 and 3 are overlapping cubes both containing `cexPoint`, with start hint
2, the code's staged search returns cell 0 (its boxes are the half-open
[1,3) and [0,4) slabs, so cell 3 is only reached via box [0,4) *after*
cell 0), while the claimed 3×3×3-then-5×5×5 staged search finds cell 3
first (cell 3 lies in the inclusive ±1 neighborhood of cell 2). -/
theorem claim_C5_counterexample :
    ecl_grid_get_global_index_from_xyz cexGrid cexPoint 2 = some 0 ∧
    locate_xyz_claim cexGrid cexPoint 2 = some 3 := by
  constructor
  · norm_num [ecl_grid_get_global_index_from_xyz, ecl_grid_box_contains_xyz,
      box_scan, scan_first, boxOrder, wrapOrder, ecl_grid_get_ijk1, Int.tdiv,
      cexGrid, EclGrid.size, List.range_succ, List.range', List.replicate,
      int_toNat_two, cex_contains_cube10, cex_contains_cube11,
      cex_contains_blank]
  · norm_num [locate_xyz_claim, ecl_grid_box_contains_xyz,
      box_scan, scan_first, boxOrder, wrapOrder, ecl_grid_get_ijk1, Int.tdiv,
      cexGrid, EclGrid.size, List.range_succ, List.range', List.replicate,
      int_toNat_two, cex_contains_cube10, cex_contains_cube11,
      cex_contains_blank]

theorem claim_C5_witness :
    ((0 : Int) ≤ 2 ∧ (2 : Int).toNat < cexGrid.size ∧
      cexGrid.cells.length = cexGrid.size) ∧
    ecl_grid_get_global_index_from_xyz cexGrid cexPoint 2 =
      locate_xyz_amended cexGrid cexPoint (2 : Int).toNat :=
  ⟨⟨by norm_num, by decide, by decide⟩,
   claim_C5_amended cexGrid cexPoint 2 (by norm_num) (by decide) (by decide)⟩
